import Mathlib

/-
  Verification development for the IfcOpenShell repository fragment:
  (a) the georeferencing editor
      (src/ifcopenshell-python/ifcopenshell/api/georeference/edit_georeferencing.py)
  (b) the BlenderBIM style tool, in particular the shading-graph classifier
      and the styled-items traversal (src/blenderbim/blenderbim/tool/style.py).

  Python floats are modelled as rationals; machine rounding on the concrete
  values used here agrees with exact rational arithmetic.  Fallible code is
  modelled with Except: a Python exception becomes `Except.error`.
-/

set_option maxHeartbeats 1000000

unseal Rat.sub Rat.add Rat.mul Rat.inv

instance {e a : Type} [DecidableEq e] [DecidableEq a] :
    DecidableEq (Except e a) := fun x y =>
  match x, y with
  | .error u, .error v =>
    decidable_of_iff (u = v) (by constructor <;> (intro h; cases h; rfl))
  | .ok u, .ok v =>
    decidable_of_iff (u = v) (by constructor <;> (intro h; cases h; rfl))
  | .error _, .ok _ => isFalse (fun h => Except.noConfusion h)
  | .ok _, .error _ => isFalse (fun h => Except.noConfusion h)

/-! ## Part A: the georeferencing editor

The IFC document is modelled by the state the edited code can observe and
mutate: the schema string, the presence of an IfcProject, the plain
IfcGeometricRepresentationContext entities (by_type with
include_subtypes=False), the IfcDirection entities (id, DirectionRatios),
reference counts contributed by non-context referrers of a direction
(get_inverse counts every referencing entity; contexts are counted from the
contexts list itself), the two legacy well-known property sets, and the
IfcCoordinateOperation / IfcProjectedCRS entities as attribute maps.
Fresh entity creation draws ids from `nextId`. -/

/-- An IFC attribute or property value: a string or a number. -/
inductive AttrVal where
  | vStr : String → AttrVal
  | vNum : ℚ → AttrVal
deriving DecidableEq

/-- An IfcGeometricRepresentationContext as seen by `set_true_north`:
its TrueNorth attribute (an optional reference to an IfcDirection entity)
and its CoordinateSpaceDimension. -/
structure GeoContext where
  trueNorth : Option Nat
  coordinateSpaceDimension : Nat
deriving DecidableEq

/-- The slice of an IFC document observed and mutated by edit_georeferencing. -/
structure GeoFile where
  schema : String
  hasProject : Bool
  nextId : Nat
  contexts : List GeoContext
  directions : List (Nat × List ℚ)
  extraDirRefs : List (Nat × Nat)
  psetCrs : Option (List (String × AttrVal))
  psetConv : Option (List (String × AttrVal))
  coordOps : List (List (String × AttrVal))
  projCrss : List (List (String × AttrVal))
deriving DecidableEq

/-- Look up the DirectionRatios of the direction entity with id `d`. -/
def dirLookup (ds : List (Nat × List ℚ)) (d : Nat) : Option (List ℚ) :=
  (ds.find? (fun p => p.1 = d)).map (fun p => p.2)

/-- Mutate the DirectionRatios of direction `d` in place (no effect when the
entity does not exist, which well-formed documents exclude). -/
def setRatios (ds : List (Nat × List ℚ)) (d : Nat) (r : List ℚ) :
    List (Nat × List ℚ) :=
  match ds with
  | [] => []
  | p :: rest => if p.1 = d then (d, r) :: rest else p :: setRatios rest d r

/-- Referrers of direction `d` contributed by entities other than the
contexts themselves. -/
def extraLookup (l : List (Nat × Nat)) (d : Nat) : Nat :=
  match l.find? (fun p => p.1 = d) with
  | some p => p.2
  | none => 0

/-- len(self.file.get_inverse(direction)): the number of entities that
reference direction `d` (contexts through TrueNorth, plus any others). -/
def inverseCount (f : GeoFile) (d : Nat) : Nat :=
  f.contexts.countP (fun c => decide (c.trueNorth = some d)) +
    extraLookup f.extraDirRefs d

/-- The DirectionRatios value assigned by `set_true_north`:
`true_north[0:2]` for a 2-dimensional context, `true_north[0:2] + [0.0]`
otherwise (source lines 148-151). -/
def padRatios (tn : List ℚ) (dim : Nat) : List ℚ :=
  if dim = 2 then tn.take 2 else tn.take 2 ++ [0]

/-- One iteration of the `for context in ...` loop of `set_true_north`
(source lines 137-151), acting on the context at index `i` of the live file:
if the context has a TrueNorth whose referrer count is not 1, or has none,
a fresh IfcDirection is created and the context repointed; then the
(possibly new) direction's DirectionRatios are assigned.  The source's
`true_north is None` branch (lines 144-147) is dead code — the wrapper
substitutes an empty list for None — and is not representable here. -/
def processContext (tn : List ℚ) (f : GeoFile) (i : Nat) : GeoFile :=
  match f.contexts[i]? with
  | none => f
  | some c =>
    match c.trueNorth with
    | some d =>
      if inverseCount f d ≠ 1 then
        let newId := f.nextId
        let f1 : GeoFile :=
          { f with nextId := f.nextId + 1,
                   directions := f.directions ++ [(newId, [])],
                   contexts := f.contexts.set i { c with trueNorth := some newId } }
        { f1 with directions :=
            setRatios f1.directions newId (padRatios tn c.coordinateSpaceDimension) }
      else
        { f with directions :=
            setRatios f.directions d (padRatios tn c.coordinateSpaceDimension) }
    | none =>
      let newId := f.nextId
      let f1 : GeoFile :=
        { f with nextId := f.nextId + 1,
                 directions := f.directions ++ [(newId, [])],
                 contexts := f.contexts.set i { c with trueNorth := some newId } }
      { f1 with directions :=
          setRatios f1.directions newId (padRatios tn c.coordinateSpaceDimension) }

/-- Usecase.set_true_north (source lines 134-151): returns immediately when
`true_north` is empty, else runs the loop body over every plain geometric
representation context of the file. -/
def set_true_north (tn : List ℚ) (f : GeoFile) : GeoFile :=
  if tn = [] then f
  else (List.range f.contexts.length).foldl (processContext tn) f

/-- setattr(entity, name, value): set one attribute of an attribute map. -/
def setAttr (e : List (String × AttrVal)) (k : String) (v : AttrVal) :
    List (String × AttrVal) :=
  match e with
  | [] => [(k, v)]
  | p :: rest => if p.1 = k then (k, v) :: rest else p :: setAttr rest k v

/-- Read one attribute of an attribute map. -/
def getAttr (e : List (String × AttrVal)) (k : String) : Option AttrVal :=
  (e.find? (fun p => p.1 = k)).map (fun p => p.2)

/-- The `for name, value in settings.items(): setattr(entity, name, value)`
loops of the modern-schema path (source lines 129-132). -/
def applyAttrs (e : List (String × AttrVal)) (s : List (String × AttrVal)) :
    List (String × AttrVal) :=
  s.foldl (fun acc kv => setAttr acc kv.1 kv.2) e

/-- Modelled from the spec: `ifcopenshell.api.pset.edit_pset` (not under
src/) applies a partial update to a property set — only the keys present in
`updates` are touched.  The source's loops over the settings at lines
110-116 and 120-124 compute wrapped values but discard them (the loop
variable is rebound and never stored), so `edit_pset` receives the raw
settings mapping. -/
def edit_pset (props : List (String × AttrVal)) (updates : List (String × AttrVal)) :
    List (String × AttrVal) :=
  applyAttrs props updates

/-- The settings dictionary built by the `edit_georeferencing` wrapper
(after the `or {}` / `or []` default substitutions). -/
structure GeoSettings where
  coordinate_operation : List (String × AttrVal)
  projected_crs : List (String × AttrVal)
  true_north : List ℚ
deriving DecidableEq

/-- Usecase.execute (source lines 102-132): runs set_true_north, then
either the legacy (IFC2X3) property-set path — a silent return when no
IfcProject exists — or the modern path, which indexes the first
IfcCoordinateOperation and IfcProjectedCRS (an IndexError when absent)
and assigns the given attributes on them. -/
def legacyPsets (g : GeoFile) (s : GeoSettings) : GeoFile :=
  let g1 :=
    match g.psetCrs with
    | some props => { g with psetCrs := some (edit_pset props s.projected_crs) }
    | none => g
  match g1.psetConv with
  | some props => { g1 with psetConv := some (edit_pset props s.coordinate_operation) }
  | none => g1

def execute (f : GeoFile) (s : GeoSettings) : Except String GeoFile :=
  let f := set_true_north s.true_north f
  if f.schema = "IFC2X3" then
    if f.hasProject = false then .ok f
    else .ok (legacyPsets f s)
  else
    match f.coordOps, f.projCrss with
    | co :: coRest, pc :: pcRest =>
      .ok { f with coordOps := applyAttrs co s.coordinate_operation :: coRest,
                   projCrss := applyAttrs pc s.projected_crs :: pcRest }
    | [], _ => .error "IndexError: list index out of range"
    | _ :: _, [] => .error "IndexError: list index out of range"

/-- The public edit_georeferencing function (source lines 23-98): builds the
settings dict, substituting an empty mapping / empty list for absent
arguments, and runs Usecase.execute. -/
def edit_georeferencing (file : GeoFile)
    (coordinate_operation : Option (List (String × AttrVal)))
    (projected_crs : Option (List (String × AttrVal)))
    (true_north : Option (ℚ × ℚ)) : Except String GeoFile :=
  execute file
    { coordinate_operation := coordinate_operation.getD []
      projected_crs := projected_crs.getD []
      true_north :=
        match true_north with
        | some p => [p.1, p.2]
        | none => [] }

/-- Well-formedness of the modelled document: every entity id referenced
anywhere is below `nextId`, and every direction referenced by a context
exists among the direction entities. -/
def GeoFile.wfb (f : GeoFile) : Bool :=
  f.contexts.all (fun c => c.trueNorth.all (fun d => d < f.nextId)) &&
  f.directions.all (fun p => p.1 < f.nextId) &&
  f.extraDirRefs.all (fun p => p.1 < f.nextId) &&
  f.contexts.all (fun c => c.trueNorth.all (fun d => (dirLookup f.directions d).isSome))

/-! ### Helper lemmas for the list-level operations -/

lemma setRatios_length (ds : List (Nat × List ℚ)) (d : Nat) (r : List ℚ) :
    (setRatios ds d r).length = ds.length := by
  induction ds with
  | nil => rfl
  | cons p rest ih =>
    by_cases h : p.1 = d <;> simp [setRatios, h, ih]

lemma setRatios_map_fst (ds : List (Nat × List ℚ)) (d : Nat) (r : List ℚ) :
    (setRatios ds d r).map Prod.fst = ds.map Prod.fst := by
  induction ds with
  | nil => rfl
  | cons p rest ih =>
    by_cases h : p.1 = d <;> simp [setRatios, h, ih]

lemma dirLookup_isSome_iff (ds : List (Nat × List ℚ)) (d : Nat) :
    (dirLookup ds d).isSome = true ↔ d ∈ ds.map Prod.fst := by
  unfold dirLookup
  cases h : ds.find? (fun p => p.1 = d) with
  | none =>
    simp only [Option.map_none', Option.isSome_none, Bool.false_eq_true, false_iff]
    intro hmem
    rcases List.mem_map.1 hmem with ⟨x, hx, he⟩
    have := List.find?_eq_none.1 h x hx
    simp [he] at this
  | some p =>
    simp only [Option.map_some', Option.isSome_some, true_iff]
    have h1 := List.find?_some h
    have h2 := List.mem_of_find?_eq_some h
    simp only [decide_eq_true_eq] at h1
    exact h1 ▸ List.mem_map_of_mem Prod.fst h2

lemma dirLookup_setRatios_self (ds : List (Nat × List ℚ)) (d : Nat) (r : List ℚ)
    (h : (dirLookup ds d).isSome = true) :
    dirLookup (setRatios ds d r) d = some r := by
  induction ds with
  | nil => simp [dirLookup] at h
  | cons p rest ih =>
    by_cases hp : p.1 = d
    · simp only [setRatios, if_pos hp]
      unfold dirLookup
      rw [List.find?_cons_of_pos _ (by simp)]
      rfl
    · simp only [setRatios, if_neg hp]
      unfold dirLookup at h ⊢
      rw [List.find?_cons_of_neg _ (by simpa using hp)] at h
      rw [List.find?_cons_of_neg _ (by simpa using hp)]
      exact ih h

lemma dirLookup_setRatios_ne (ds : List (Nat × List ℚ)) (d d' : Nat) (r : List ℚ)
    (h : d' ≠ d) :
    dirLookup (setRatios ds d r) d' = dirLookup ds d' := by
  induction ds with
  | nil => rfl
  | cons p rest ih =>
    by_cases hp : p.1 = d
    · simp only [setRatios, if_pos hp]
      unfold dirLookup
      rw [List.find?_cons_of_neg _ (by simpa using fun he : d = d' => h he.symm),
        List.find?_cons_of_neg _ (by simpa [hp] using fun he : d = d' => h he.symm)]
    · simp only [setRatios, if_neg hp]
      unfold dirLookup at ih ⊢
      by_cases hp' : p.1 = d'
      · rw [List.find?_cons_of_pos _ (by simpa using hp'),
          List.find?_cons_of_pos _ (by simpa using hp')]
      · rw [List.find?_cons_of_neg _ (by simpa using hp'),
          List.find?_cons_of_neg _ (by simpa using hp')]
        exact ih

lemma dirLookup_append_left (ds es : List (Nat × List ℚ)) (d : Nat)
    (h : (dirLookup ds d).isSome = true) :
    dirLookup (ds ++ es) d = dirLookup ds d := by
  unfold dirLookup at h ⊢
  rw [List.find?_append]
  cases h' : ds.find? (fun p => p.1 = d) with
  | none => rw [h'] at h; simp at h
  | some p => rw [Option.or_some]

lemma dirLookup_append_right (ds es : List (Nat × List ℚ)) (d : Nat)
    (h : dirLookup ds d = none) :
    dirLookup (ds ++ es) d = dirLookup es d := by
  unfold dirLookup at h ⊢
  rw [List.find?_append]
  cases h' : ds.find? (fun p => p.1 = d) with
  | none => rw [Option.none_or]
  | some p => rw [h'] at h; simp at h

lemma dirLookup_not_mem (ds : List (Nat × List ℚ)) (d : Nat)
    (h : ∀ p ∈ ds, p.1 ≠ d) : dirLookup ds d = none := by
  simp only [dirLookup, Option.map_eq_none']
  exact List.find?_eq_none.2 (fun x hx => by simpa using h x hx)

lemma extraLookup_eq_zero (l : List (Nat × Nat)) (d : Nat)
    (h : ∀ p ∈ l, p.1 ≠ d) : extraLookup l d = 0 := by
  unfold extraLookup
  rw [List.find?_eq_none.2 (fun x hx => by simpa using h x hx)]

lemma countP_set {α : Type} (l : List α) (i : Nat) (c x : α) (p : α → Bool)
    (h : l[i]? = some c) :
    (l.set i x).countP p + (if p c then 1 else 0) =
      l.countP p + (if p x then 1 else 0) := by
  induction l generalizing i with
  | nil => simp at h
  | cons a t ih =>
    cases i with
    | zero =>
      simp only [List.getElem?_cons_zero] at h
      injection h with h; subst h
      simp only [List.set, List.countP_cons]
      omega
    | succ n =>
      simp only [List.getElem?_cons_succ] at h
      simp only [List.set, List.countP_cons]
      have := ih n h
      omega

lemma countP_two {α : Type} (l : List α) (p : α → Bool) :
    ∀ (i j : Nat) (a b : α), i < j → l[i]? = some a → l[j]? = some b →
      p a = true → p b = true → 2 ≤ l.countP p := by
  induction l with
  | nil => intro i j a b _ h; simp at h
  | cons x t ih =>
    intro i j a b hij ha hb hpa hpb
    cases i with
    | zero =>
      simp only [List.getElem?_cons_zero] at ha
      injection ha with ha; subst ha
      cases j with
      | zero => omega
      | succ m =>
        simp only [List.getElem?_cons_succ] at hb
        have hmem : b ∈ t := List.getElem?_mem hb
        have hpos : 0 < t.countP p := List.countP_pos_iff.2 ⟨b, hmem, hpb⟩
        rw [List.countP_cons, if_pos hpa]
        omega
    | succ n =>
      cases j with
      | zero => omega
      | succ m =>
        simp only [List.getElem?_cons_succ] at ha hb
        have h2 := ih n m a b (by omega) ha hb hpa hpb
        rw [List.countP_cons]
        omega

lemma getAttr_setAttr_ne (e : List (String × AttrVal)) (k k' : String) (v : AttrVal)
    (h : k ≠ k') :
    getAttr (setAttr e k' v) k = getAttr e k := by
  induction e with
  | nil =>
    unfold getAttr setAttr
    rw [List.find?_cons_of_neg _ (by simpa using fun he : k' = k => h he.symm)]
  | cons p rest ih =>
    by_cases hp : p.1 = k'
    · simp only [setAttr, if_pos hp]
      unfold getAttr
      rw [List.find?_cons_of_neg _ (by simpa using fun he : k' = k => h he.symm),
        List.find?_cons_of_neg _
          (by simpa using fun he : p.1 = k => h ((he ▸ hp : k = k')))]
    · simp only [setAttr, if_neg hp]
      unfold getAttr at ih ⊢
      by_cases hk : p.1 = k
      · rw [List.find?_cons_of_pos _ (by simpa using hk),
          List.find?_cons_of_pos _ (by simpa using hk)]
      · rw [List.find?_cons_of_neg _ (by simpa using hk),
          List.find?_cons_of_neg _ (by simpa using hk)]
        exact ih

lemma getAttr_applyAttrs_not_mem (s : List (String × AttrVal)) :
    ∀ (e : List (String × AttrVal)) (k : String),
      k ∉ s.map Prod.fst → getAttr (applyAttrs e s) k = getAttr e k := by
  induction s with
  | nil => intro e k _; rfl
  | cons kv rest ih =>
    intro e k hk
    simp only [List.map_cons, List.mem_cons, not_or] at hk
    have step : applyAttrs e (kv :: rest) = applyAttrs (setAttr e kv.1 kv.2) rest := rfl
    rw [step, ih _ k hk.2, getAttr_setAttr_ne _ _ _ _ hk.1]

/-! ### Shape lemmas for one loop iteration of set_true_north -/

lemma processContext_no_ctx (tn : List ℚ) (f : GeoFile) (i : Nat)
    (h : f.contexts[i]? = none) : processContext tn f i = f := by
  unfold processContext
  rw [h]

lemma processContext_inplace (tn : List ℚ) (f : GeoFile) (i : Nat)
    (c : GeoContext) (d : Nat)
    (h : f.contexts[i]? = some c) (hd : c.trueNorth = some d)
    (hcount : inverseCount f d = 1) :
    processContext tn f i =
      { f with directions :=
          setRatios f.directions d (padRatios tn c.coordinateSpaceDimension) } := by
  simp [processContext, h, hd, hcount]

lemma processContext_fresh_of_shared (tn : List ℚ) (f : GeoFile) (i : Nat)
    (c : GeoContext) (d : Nat)
    (h : f.contexts[i]? = some c) (hd : c.trueNorth = some d)
    (hcount : inverseCount f d ≠ 1) :
    processContext tn f i =
      { f with nextId := f.nextId + 1,
               contexts := f.contexts.set i { c with trueNorth := some f.nextId },
               directions :=
                 setRatios (f.directions ++ [(f.nextId, [])]) f.nextId
                   (padRatios tn c.coordinateSpaceDimension) } := by
  simp [processContext, h, hd, hcount]

lemma processContext_fresh_of_none (tn : List ℚ) (f : GeoFile) (i : Nat)
    (c : GeoContext)
    (h : f.contexts[i]? = some c) (hd : c.trueNorth = none) :
    processContext tn f i =
      { f with nextId := f.nextId + 1,
               contexts := f.contexts.set i { c with trueNorth := some f.nextId },
               directions :=
                 setRatios (f.directions ++ [(f.nextId, [])]) f.nextId
                   (padRatios tn c.coordinateSpaceDimension) } := by
  simp [processContext, h, hd]

/-- The loop body touches only nextId, contexts and directions: all other
fields of the document are untouched. -/
lemma processContext_misc (tn : List ℚ) (f : GeoFile) (i : Nat) :
    (processContext tn f i).schema = f.schema ∧
    (processContext tn f i).hasProject = f.hasProject ∧
    (processContext tn f i).extraDirRefs = f.extraDirRefs ∧
    (processContext tn f i).psetCrs = f.psetCrs ∧
    (processContext tn f i).psetConv = f.psetConv ∧
    (processContext tn f i).coordOps = f.coordOps ∧
    (processContext tn f i).projCrss = f.projCrss := by
  cases h : f.contexts[i]? with
  | none =>
    rw [processContext_no_ctx tn f i h]
    exact ⟨rfl, rfl, rfl, rfl, rfl, rfl, rfl⟩
  | some c =>
    cases hd : c.trueNorth with
    | some d =>
      by_cases hc : inverseCount f d = 1
      · rw [processContext_inplace tn f i c d h hd hc]
        exact ⟨rfl, rfl, rfl, rfl, rfl, rfl, rfl⟩
      · rw [processContext_fresh_of_shared tn f i c d h hd hc]
        exact ⟨rfl, rfl, rfl, rfl, rfl, rfl, rfl⟩
    | none =>
      rw [processContext_fresh_of_none tn f i c h hd]
      exact ⟨rfl, rfl, rfl, rfl, rfl, rfl, rfl⟩

lemma foldl_processContext_misc (tn : List ℚ) (l : List Nat) :
    ∀ f : GeoFile,
      (l.foldl (processContext tn) f).schema = f.schema ∧
      (l.foldl (processContext tn) f).hasProject = f.hasProject ∧
      (l.foldl (processContext tn) f).extraDirRefs = f.extraDirRefs ∧
      (l.foldl (processContext tn) f).psetCrs = f.psetCrs ∧
      (l.foldl (processContext tn) f).psetConv = f.psetConv ∧
      (l.foldl (processContext tn) f).coordOps = f.coordOps ∧
      (l.foldl (processContext tn) f).projCrss = f.projCrss := by
  induction l with
  | nil => intro f; exact ⟨rfl, rfl, rfl, rfl, rfl, rfl, rfl⟩
  | cons x xs ih =>
    intro f
    have h1 := processContext_misc tn f x
    have h2 := ih (processContext tn f x)
    simp only [List.foldl_cons]
    exact ⟨h2.1.trans h1.1, h2.2.1.trans h1.2.1, h2.2.2.1.trans h1.2.2.1,
      h2.2.2.2.1.trans h1.2.2.2.1, h2.2.2.2.2.1.trans h1.2.2.2.2.1,
      h2.2.2.2.2.2.1.trans h1.2.2.2.2.2.1, h2.2.2.2.2.2.2.trans h1.2.2.2.2.2.2⟩

lemma set_true_north_misc (tn : List ℚ) (f : GeoFile) :
    (set_true_north tn f).schema = f.schema ∧
    (set_true_north tn f).hasProject = f.hasProject ∧
    (set_true_north tn f).extraDirRefs = f.extraDirRefs ∧
    (set_true_north tn f).psetCrs = f.psetCrs ∧
    (set_true_north tn f).psetConv = f.psetConv ∧
    (set_true_north tn f).coordOps = f.coordOps ∧
    (set_true_north tn f).projCrss = f.projCrss := by
  unfold set_true_north
  by_cases h : tn = []
  · simp [h]
  · simp only [h, if_false]
    exact foldl_processContext_misc tn _ f

/-- Usecase.execute leaves the true-north-related state exactly as
set_true_north left it: the schema branches touch only property sets and
the coordinate-operation / projected-CRS entities. -/
lemma execute_core (f : GeoFile) (s : GeoSettings) (f' : GeoFile)
    (h : execute f s = .ok f') :
    f'.contexts = (set_true_north s.true_north f).contexts ∧
    f'.directions = (set_true_north s.true_north f).directions ∧
    f'.nextId = (set_true_north s.true_north f).nextId ∧
    f'.extraDirRefs = (set_true_north s.true_north f).extraDirRefs := by
  have hleg : ∀ g : GeoFile,
      (legacyPsets g s).contexts = g.contexts ∧
      (legacyPsets g s).directions = g.directions ∧
      (legacyPsets g s).nextId = g.nextId ∧
      (legacyPsets g s).extraDirRefs = g.extraDirRefs := by
    intro g
    unfold legacyPsets
    cases h1 : g.psetCrs <;> cases h2 : g.psetConv <;> simp [h1, h2]
  simp only [execute] at h
  set g := set_true_north s.true_north f with hg
  by_cases hs : g.schema = "IFC2X3"
  · rw [if_pos hs] at h
    by_cases hp : g.hasProject = false
    · rw [if_pos hp] at h
      injection h with h
      subst h
      exact ⟨rfl, rfl, rfl, rfl⟩
    · rw [if_neg hp] at h
      injection h with h
      subst h
      exact hleg g
  · rw [if_neg hs] at h
    cases h1 : g.coordOps with
    | nil => rw [h1] at h; cases h
    | cons co coRest =>
      cases h2 : g.projCrss with
      | nil => rw [h1, h2] at h; cases h
      | cons pc pcRest =>
        rw [h1, h2] at h
        injection h with h
        subst h
        exact ⟨rfl, rfl, rfl, rfl⟩

/-! ### More helpers for direction bookkeeping -/

lemma setRatios_key_lt (ds : List (Nat × List ℚ)) (d : Nat) (r : List ℚ) (n : Nat)
    (h : ∀ p ∈ ds, p.1 < n) : ∀ p ∈ setRatios ds d r, p.1 < n := by
  induction ds with
  | nil => intro p hp; simp [setRatios] at hp
  | cons q rest ih =>
    intro p hp
    by_cases hq : q.1 = d
    · simp only [setRatios, if_pos hq, List.mem_cons] at hp
      rcases hp with hp | hp
      · have := h q (List.mem_cons_self q rest)
        rw [hp]
        simpa [hq] using this
      · exact h p (List.mem_cons_of_mem q hp)
    · simp only [setRatios, if_neg hq, List.mem_cons] at hp
      rcases hp with hp | hp
      · exact hp ▸ h q (List.mem_cons_self q rest)
      · exact ih (fun x hx => h x (List.mem_cons_of_mem q hx)) p hp

lemma dirLookup_setRatios_isSome (ds : List (Nat × List ℚ)) (d d' : Nat) (r : List ℚ) :
    (dirLookup (setRatios ds d r) d').isSome = (dirLookup ds d').isSome := by
  have h1 := dirLookup_isSome_iff (setRatios ds d r) d'
  have h2 := dirLookup_isSome_iff ds d'
  rw [setRatios_map_fst] at h1
  exact Bool.eq_iff_iff.2 (h1.trans h2.symm)

lemma dirLookup_append_single_ne (ds : List (Nat × List ℚ)) (d' e : Nat) (v : List ℚ)
    (h : d' ≠ e) : dirLookup (ds ++ [(e, v)]) d' = dirLookup ds d' := by
  by_cases hs : (dirLookup ds d').isSome = true
  · exact dirLookup_append_left ds _ d' hs
  · have hn : dirLookup ds d' = none := by
      cases hx : dirLookup ds d' with
      | none => rfl
      | some p => rw [hx] at hs; simp at hs
    rw [dirLookup_append_right ds _ d' hn, hn, dirLookup_not_mem]
    intro p hp
    simp only [List.mem_singleton] at hp
    rw [hp]
    exact fun he => h he.symm

lemma dirLookup_append_single_self (ds : List (Nat × List ℚ)) (e : Nat) (v : List ℚ)
    (h : dirLookup ds e = none) : dirLookup (ds ++ [(e, v)]) e = some v := by
  rw [dirLookup_append_right ds _ e h]
  simp [dirLookup, List.find?_cons_of_pos]

lemma wfb_spec (f : GeoFile) (h : f.wfb = true) :
    (∀ c ∈ f.contexts, ∀ d, c.trueNorth = some d → d < f.nextId) ∧
    (∀ p ∈ f.directions, p.1 < f.nextId) ∧
    (∀ p ∈ f.extraDirRefs, p.1 < f.nextId) ∧
    (∀ c ∈ f.contexts, ∀ d, c.trueNorth = some d →
      (dirLookup f.directions d).isSome = true) := by
  unfold GeoFile.wfb at h
  simp only [Bool.and_eq_true, List.all_eq_true] at h
  obtain ⟨⟨⟨h1, h2⟩, h3⟩, h4⟩ := h
  refine ⟨?_, ?_, ?_, ?_⟩
  · intro c hc d hd
    have := h1 c hc
    rw [hd] at this
    simpa using this
  · intro p hp
    simpa using h2 p hp
  · intro p hp
    simpa using h3 p hp
  · intro c hc d hd
    have := h4 c hc
    rw [hd] at this
    simpa using this

/-- Prefixes of the set_true_north loop: the state after the first `k`
iterations of the loop body. -/
def stnFold (tn : List ℚ) (f : GeoFile) (k : Nat) : GeoFile :=
  (List.range k).foldl (processContext tn) f

lemma stnFold_succ (tn : List ℚ) (f : GeoFile) (k : Nat) :
    stnFold tn f (k + 1) = processContext tn (stnFold tn f k) k := by
  unfold stnFold
  rw [List.range_succ, List.foldl_append]
  rfl

lemma set_true_north_eq_stnFold (tn : List ℚ) (f : GeoFile) (h : tn ≠ []) :
    set_true_north tn f = stnFold tn f f.contexts.length := by
  unfold set_true_north stnFold
  rw [if_neg h]

lemma count_ge_two (g : GeoFile) (i j : Nat) (ci cj : GeoContext) (d : Nat)
    (hij : i ≠ j) (hi : g.contexts[i]? = some ci) (hj : g.contexts[j]? = some cj)
    (hdi : ci.trueNorth = some d) (hdj : cj.trueNorth = some d) :
    2 ≤ inverseCount g d := by
  unfold inverseCount
  rcases Nat.lt_or_ge i j with h | h
  · have := countP_two g.contexts (fun c => decide (c.trueNorth = some d))
      i j ci cj h hi hj (by simp [hdi]) (by simp [hdj])
    omega
  · have hlt : j < i := by omega
    have := countP_two g.contexts (fun c => decide (c.trueNorth = some d))
      j i cj ci hlt hj hi (by simp [hdj]) (by simp [hdi])
    omega

/-- The loop invariant of `set_true_north`: after `k` iterations the
contexts count and the non-context referrers are unchanged, ids stay
well-formed, the not-yet-visited contexts are untouched, and every visited
context points at a direction entity with exactly one referrer whose
DirectionRatios hold the padded true-north value for that context's
dimension. -/
theorem stnFold_invariant (tn : List ℚ) (f : GeoFile) (hwf : f.wfb = true) (k : Nat) :
    (stnFold tn f k).contexts.length = f.contexts.length ∧
    (stnFold tn f k).extraDirRefs = f.extraDirRefs ∧
    f.nextId ≤ (stnFold tn f k).nextId ∧
    (∀ c ∈ (stnFold tn f k).contexts, ∀ d, c.trueNorth = some d →
      d < (stnFold tn f k).nextId) ∧
    (∀ p ∈ (stnFold tn f k).directions, p.1 < (stnFold tn f k).nextId) ∧
    (∀ c ∈ (stnFold tn f k).contexts, ∀ d, c.trueNorth = some d →
      (dirLookup (stnFold tn f k).directions d).isSome = true) ∧
    (∀ i, k ≤ i → (stnFold tn f k).contexts[i]? = f.contexts[i]?) ∧
    (∀ i c₀, i < k → f.contexts[i]? = some c₀ →
      ∃ c d, (stnFold tn f k).contexts[i]? = some c ∧
        c.coordinateSpaceDimension = c₀.coordinateSpaceDimension ∧
        c.trueNorth = some d ∧
        inverseCount (stnFold tn f k) d = 1 ∧
        dirLookup (stnFold tn f k).directions d =
          some (padRatios tn c₀.coordinateSpaceDimension)) := by
  obtain ⟨fPtrLt, fDirLt, fExtraLt, fPtrSome⟩ := wfb_spec f hwf
  induction k with
  | zero =>
    refine ⟨rfl, rfl, le_refl _, fPtrLt, fDirLt, fPtrSome, fun i _ => rfl, ?_⟩
    intro i c₀ hi
    omega
  | succ k ih =>
    obtain ⟨ihLen, ihExtra, ihNext, ihPtrLt, ihDirLt, ihPtrSome, ihUnproc, ihProc⟩ := ih
    rw [stnFold_succ]
    set g := stnFold tn f k with hgdef
    cases hk : g.contexts[k]? with
    | none =>
      rw [processContext_no_ctx tn g k hk]
      refine ⟨ihLen, ihExtra, ihNext, ihPtrLt, ihDirLt, ihPtrSome,
        fun i hi => ihUnproc i (by omega), ?_⟩
      intro i c₀ hi h₀
      rcases Nat.lt_succ_iff_lt_or_eq.1 hi with hi | hi
      · exact ihProc i c₀ hi h₀
      · subst hi
        rw [ihUnproc i le_rfl, h₀] at hk
        cases hk
    | some c =>
      have hcf : f.contexts[k]? = some c := by
        rw [← ihUnproc k le_rfl]
        exact hk
      have hcmem : c ∈ g.contexts := List.getElem?_mem hk
      have hklen : k < g.contexts.length := by
        rcases List.getElem?_eq_some_iff.1 hk with ⟨h, _⟩
        exact h
      by_cases hip : ∃ d, c.trueNorth = some d ∧ inverseCount g d = 1
      · -- in-place update of the context's existing direction
        obtain ⟨d, hd, hcount⟩ := hip
        rw [processContext_inplace tn g k c d hk hd hcount]
        refine ⟨ihLen, ihExtra, ihNext, ihPtrLt, ?_, ?_, ?_, ?_⟩
        · exact setRatios_key_lt _ _ _ _ ihDirLt
        · intro c' hc' d' hd'
          rw [dirLookup_setRatios_isSome]
          exact ihPtrSome c' hc' d' hd'
        · intro i hi
          exact ihUnproc i (by omega)
        · intro i c₀ hi h₀
          rcases Nat.lt_succ_iff_lt_or_eq.1 hi with hi | hi
          · obtain ⟨ci, di, hgi, hdim, hptr, hcnt, hlook⟩ := ihProc i c₀ hi h₀
            refine ⟨ci, di, hgi, hdim, hptr, hcnt, ?_⟩
            have hne : di ≠ d := by
              intro he
              subst he
              have := count_ge_two g i k ci c di (by omega) hgi hk hptr hd
              omega
            rw [dirLookup_setRatios_ne _ _ _ _ hne]
            exact hlook
          · subst hi
            have hc₀ : c = c₀ := by
              rw [hcf] at h₀
              injection h₀
            refine ⟨c, d, hk, by rw [hc₀], hd, hcount, ?_⟩
            rw [hc₀] at hd ⊢
            rw [dirLookup_setRatios_self _ _ _ (ihPtrSome c₀ (hc₀ ▸ hcmem) d hd)]
      · -- a fresh direction entity is created and the context repointed
        have hshape : processContext tn g k =
            { g with nextId := g.nextId + 1,
                     contexts := g.contexts.set k { c with trueNorth := some g.nextId },
                     directions :=
                       setRatios (g.directions ++ [(g.nextId, [])]) g.nextId
                         (padRatios tn c.coordinateSpaceDimension) } := by
          cases hd : c.trueNorth with
          | none => exact processContext_fresh_of_none tn g k c hk hd
          | some d =>
            refine processContext_fresh_of_shared tn g k c d hk hd ?_
            intro h1
            exact hip ⟨d, hd, h1⟩
        rw [hshape]
        have hNoNew : dirLookup g.directions g.nextId = none :=
          dirLookup_not_mem _ _ (fun p hp => Nat.ne_of_lt (ihDirLt p hp))
        have hlookNew :
            dirLookup (setRatios (g.directions ++ [(g.nextId, [])]) g.nextId
              (padRatios tn c.coordinateSpaceDimension)) g.nextId =
              some (padRatios tn c.coordinateSpaceDimension) := by
          refine dirLookup_setRatios_self _ _ _ ?_
          rw [dirLookup_append_single_self _ _ _ hNoNew]
          rfl
        have hlookOld : ∀ d', d' ≠ g.nextId →
            dirLookup (setRatios (g.directions ++ [(g.nextId, [])]) g.nextId
              (padRatios tn c.coordinateSpaceDimension)) d' =
              dirLookup g.directions d' := by
          intro d' hne
          rw [dirLookup_setRatios_ne _ _ _ _ hne,
            dirLookup_append_single_ne _ _ _ _ hne]
        refine ⟨?_, ihExtra, ?_, ?_, ?_, ?_, ?_, ?_⟩
        · simpa using ihLen
        · show f.nextId ≤ g.nextId + 1
          omega
        · intro c' hc' d' hd'
          rcases List.mem_or_eq_of_mem_set hc' with hc' | hc'
          · have := ihPtrLt c' hc' d' hd'
            simp only []
            omega
          · subst hc'
            simp only [] at hd'
            injection hd' with hd'
            subst hd'
            simp only []
            omega
        · intro p hp
          simp only [] at hp ⊢
          refine setRatios_key_lt _ _ _ _ ?_ p hp
          intro q hq
          rcases List.mem_append.1 hq with hq | hq
          · exact Nat.lt_succ_of_lt (ihDirLt q hq)
          · simp only [List.mem_singleton] at hq
            subst hq
            omega
        · intro c' hc' d' hd'
          simp only [] at hc' hd' ⊢
          rcases List.mem_or_eq_of_mem_set hc' with hc' | hc'
          · have hlt := ihPtrLt c' hc' d' hd'
            rw [hlookOld d' (Nat.ne_of_lt hlt)]
            exact ihPtrSome c' hc' d' hd'
          · subst hc'
            injection hd' with hd'
            subst hd'
            rw [hlookNew]
            rfl
        · intro i hi
          simp only []
          rw [List.getElem?_set_ne (by omega)]
          exact ihUnproc i (by omega)
        · intro i c₀ hi h₀
          rcases Nat.lt_succ_iff_lt_or_eq.1 hi with hi | hi
          · obtain ⟨ci, di, hgi, hdim, hptr, hcnt, hlook⟩ := ihProc i c₀ hi h₀
            have hdiLt : di < g.nextId := by
              have hcimem : ci ∈ g.contexts := List.getElem?_mem hgi
              exact ihPtrLt ci hcimem di hptr
            refine ⟨ci, di, ?_, hdim, hptr, ?_, ?_⟩
            · simp only []
              rw [List.getElem?_set_ne (by omega)]
              exact hgi
            · -- the count of di is unchanged by this iteration
              unfold inverseCount at hcnt ⊢
              simp only []
              have hpredc : decide (c.trueNorth = some di) = false := by
                cases hcd : c.trueNorth with
                | none => simp
                | some d =>
                  have : d ≠ di := by
                    intro he
                    subst he
                    unfold inverseCount at hip
                    push_neg at hip
                    exact hip d hcd hcnt
                  simp [hcd, this]
              have hpredx : decide (({ c with trueNorth := some g.nextId } :
                  GeoContext).trueNorth = some di) = false := by
                simp only [decide_eq_false_iff_not]
                intro he
                injection he with he
                omega
              have hset := countP_set g.contexts _ c
                ({ c with trueNorth := some g.nextId } : GeoContext)
                (fun c' => decide (c'.trueNorth = some di)) hk
              simp only [hpredc, hpredx, Bool.false_eq_true, if_false] at hset
              omega
            · simp only []
              rw [hlookOld di (Nat.ne_of_lt hdiLt)]
              exact hlook
          · subst hi
            have hc₀ : c = c₀ := by
              rw [hcf] at h₀
              injection h₀
            refine ⟨{ c with trueNorth := some g.nextId }, g.nextId, ?_, by rw [hc₀], rfl, ?_, ?_⟩
            · simp only []
              exact List.getElem?_set_self hklen
            · unfold inverseCount
              simp only []
              have hzero : g.contexts.countP
                  (fun c' => decide (c'.trueNorth = some g.nextId)) = 0 := by
                refine List.countP_eq_zero.2 ?_
                intro c' hc'
                simp only [decide_eq_true_eq]
                intro he
                have := ihPtrLt c' hc' g.nextId he
                omega
              have hpredc : decide (c.trueNorth = some g.nextId) = false := by
                cases hcd : c.trueNorth with
                | none => simp
                | some d =>
                  have hlt := ihPtrLt c hcmem d hcd
                  simp only [decide_eq_false_iff_not]
                  intro he
                  injection he with he
                  omega
              have hpredx : decide (({ c with trueNorth := some g.nextId } :
                  GeoContext).trueNorth = some g.nextId) = true := by simp
              have heq := countP_set g.contexts _ c
                ({ c with trueNorth := some g.nextId } : GeoContext)
                (fun c' => decide (c'.trueNorth = some g.nextId)) hk
              simp only [hpredc, hpredx, hzero, Bool.false_eq_true, if_false] at heq
              simp at heq
              have hextra : extraLookup g.extraDirRefs g.nextId = 0 := by
                rw [ihExtra]
                refine extraLookup_eq_zero _ _ ?_
                intro p hp
                have := fExtraLt p hp
                omega
              omega
            · rw [← hc₀]
              exact hlookNew

/-- When every context already points at a direction with exactly one
referrer, the loop only mutates ratios in place: no context, id or
direction entity is added or removed. -/
lemma stnFold_inplace_all (tn : List ℚ) (f : GeoFile)
    (h : ∀ i : Nat, ∀ c : GeoContext, f.contexts[i]? = some c →
      ∃ d, c.trueNorth = some d ∧ inverseCount f d = 1) :
    ∀ k, (stnFold tn f k).contexts = f.contexts ∧
         (stnFold tn f k).extraDirRefs = f.extraDirRefs ∧
         (stnFold tn f k).nextId = f.nextId ∧
         (stnFold tn f k).directions.length = f.directions.length := by
  intro k
  induction k with
  | zero => exact ⟨rfl, rfl, rfl, rfl⟩
  | succ k ih =>
    obtain ⟨ihC, ihE, ihN, ihL⟩ := ih
    rw [stnFold_succ]
    set g := stnFold tn f k
    cases hk : g.contexts[k]? with
    | none =>
      rw [processContext_no_ctx tn g k hk]
      exact ⟨ihC, ihE, ihN, ihL⟩
    | some c =>
      have hcf : f.contexts[k]? = some c := by
        rw [← ihC]
        exact hk
      obtain ⟨d, hd, hcount⟩ := h k c hcf
      have hcount' : inverseCount g d = 1 := by
        unfold inverseCount at hcount ⊢
        rw [ihC, ihE]
        exact hcount
      rw [processContext_inplace tn g k c d hk hd hcount']
      refine ⟨ihC, ihE, ihN, ?_⟩
      show (setRatios g.directions d _).length = f.directions.length
      rw [setRatios_length]
      exact ihL

lemma set_true_north_inplace_all (tn : List ℚ) (f : GeoFile)
    (h : ∀ i : Nat, ∀ c : GeoContext, f.contexts[i]? = some c →
      ∃ d, c.trueNorth = some d ∧ inverseCount f d = 1) :
    (set_true_north tn f).directions.length = f.directions.length := by
  unfold set_true_north
  by_cases htn : tn = []
  · rw [if_pos htn]
  · rw [if_neg htn]
    exact (stnFold_inplace_all tn f h f.contexts.length).2.2.2

/-! ### Shapes of Usecase.execute on the three document classes -/

lemma execute_legacy_noproject (f : GeoFile) (s : GeoSettings)
    (h1 : f.schema = "IFC2X3") (h2 : f.hasProject = false) :
    execute f s = .ok (set_true_north s.true_north f) := by
  have hm := set_true_north_misc s.true_north f
  simp only [execute]
  rw [if_pos (hm.1.trans h1), if_pos (hm.2.1.trans h2)]

lemma execute_modern (f : GeoFile) (s : GeoSettings)
    (co0 pc0 : List (String × AttrVal))
    (coRest pcRest : List (List (String × AttrVal)))
    (hs : f.schema ≠ "IFC2X3")
    (hco : f.coordOps = co0 :: coRest) (hpc : f.projCrss = pc0 :: pcRest) :
    execute f s = .ok
      { set_true_north s.true_north f with
        coordOps := applyAttrs co0 s.coordinate_operation :: coRest,
        projCrss := applyAttrs pc0 s.projected_crs :: pcRest } := by
  have hm := set_true_north_misc s.true_north f
  simp only [execute]
  rw [if_neg (fun he => hs (hm.1.symm.trans he))]
  have h1 : (set_true_north s.true_north f).coordOps = co0 :: coRest :=
    hm.2.2.2.2.2.1.trans hco
  have h2 : (set_true_north s.true_north f).projCrss = pc0 :: pcRest :=
    hm.2.2.2.2.2.2.trans hpc
  simp only [h1, h2]

lemma execute_modern_error (f : GeoFile) (s : GeoSettings)
    (hs : f.schema ≠ "IFC2X3")
    (hmissing : f.coordOps = [] ∨ f.projCrss = []) :
    ∃ e, execute f s = .error e := by
  have hm := set_true_north_misc s.true_north f
  simp only [execute]
  rw [if_neg (fun he => hs (hm.1.symm.trans he))]
  rcases hmissing with hmi | hmi
  · have h1 : (set_true_north s.true_north f).coordOps = [] :=
      hm.2.2.2.2.2.1.trans hmi
    simp only [h1]
    exact ⟨_, rfl⟩
  · have h2 : (set_true_north s.true_north f).projCrss = [] :=
      hm.2.2.2.2.2.2.trans hmi
    cases h1 : (set_true_north s.true_north f).coordOps with
    | nil =>
      simp only [h1]
      exact ⟨_, rfl⟩
    | cons co coRest =>
      simp only [h1, h2]
      exact ⟨_, rfl⟩

/-! ### Claims about the georeferencing editor -/

/-- Claim C10: on a non-IFC2X3 document missing an IfcCoordinateOperation
or an IfcProjectedCRS entity, edit_georeferencing raises (first-element
indexing on an empty by_type lookup), whatever the three arguments are —
in particular even when both attribute mappings are empty. -/
theorem C10_modern_requires_entities (f : GeoFile)
    (co pc : Option (List (String × AttrVal))) (tnp : Option (ℚ × ℚ))
    (hs : f.schema ≠ "IFC2X3")
    (hmissing : f.coordOps = [] ∨ f.projCrss = []) :
    ∃ e, edit_georeferencing f co pc tnp = .error e := by
  unfold edit_georeferencing
  exact execute_modern_error f _ hs hmissing

theorem C10_witness :
    ∃ e, edit_georeferencing
      { schema := "IFC4", hasProject := true, nextId := 1, contexts := [],
        directions := [], extraDirRefs := [], psetCrs := none, psetConv := none,
        coordOps := [], projCrss := [] } none none none = .error e :=
  C10_modern_requires_entities _ none none none (by decide) (Or.inl rfl)

/-- Claim C7: edit_georeferencing applies a partial update — on the modern
path only the attributes named in the two input mappings are assigned, every
other attribute of the first coordinate-operation and projected-CRS entity
is unchanged, and an absent trueNorth skips the true-north step, leaving
contexts and direction entities untouched. -/
theorem C7_partial_update (f : GeoFile)
    (co pc : List (String × AttrVal)) (tnp : Option (ℚ × ℚ)) (f' : GeoFile)
    (co0 pc0 : List (String × AttrVal))
    (coRest pcRest : List (List (String × AttrVal))) (k k' : String)
    (hs : f.schema ≠ "IFC2X3")
    (hco : f.coordOps = co0 :: coRest) (hpc : f.projCrss = pc0 :: pcRest)
    (hok : edit_georeferencing f (some co) (some pc) tnp = .ok f')
    (hk : k ∉ co.map Prod.fst) (hk' : k' ∉ pc.map Prod.fst) :
    f'.coordOps = applyAttrs co0 co :: coRest ∧
    f'.projCrss = applyAttrs pc0 pc :: pcRest ∧
    getAttr (applyAttrs co0 co) k = getAttr co0 k ∧
    getAttr (applyAttrs pc0 pc) k' = getAttr pc0 k' ∧
    (tnp = none →
      f'.contexts = f.contexts ∧ f'.directions = f.directions ∧
      f'.nextId = f.nextId ∧ f'.extraDirRefs = f.extraDirRefs) := by
  unfold edit_georeferencing at hok
  rw [execute_modern f _ co0 pc0 coRest pcRest hs hco hpc] at hok
  injection hok with hok
  subst hok
  refine ⟨rfl, rfl, getAttr_applyAttrs_not_mem co co0 k hk,
    getAttr_applyAttrs_not_mem pc pc0 k' hk', ?_⟩
  intro htn
  subst htn
  show (set_true_north [] f).contexts = f.contexts ∧
    (set_true_north [] f).directions = f.directions ∧
    (set_true_north [] f).nextId = f.nextId ∧
    (set_true_north [] f).extraDirRefs = f.extraDirRefs
  unfold set_true_north
  rw [if_pos rfl]
  exact ⟨rfl, rfl, rfl, rfl⟩

def c7File : GeoFile :=
  { schema := "IFC4", hasProject := true, nextId := 3,
    contexts := [{ trueNorth := some 1, coordinateSpaceDimension := 3 }],
    directions := [(1, [1, 0])], extraDirRefs := [], psetCrs := none,
    psetConv := none,
    coordOps := [[("Eastings", .vNum 7), ("Northings", .vNum 8)]],
    projCrss := [[("Name", .vStr "EPSG:7856")]] }

theorem C7_witness :
    c7File.coordOps = [[("Eastings", .vNum 7), ("Northings", .vNum 8)]] ∧
    (edit_georeferencing c7File (some [("Eastings", .vNum 9)])
        (some []) none = .ok
      { c7File with
          coordOps := [[("Eastings", .vNum 9), ("Northings", .vNum 8)]] }) ∧
    getAttr (applyAttrs [("Eastings", .vNum 7), ("Northings", .vNum 8)]
        [("Eastings", .vNum 9)]) "Northings" =
      getAttr [("Eastings", .vNum 7), ("Northings", .vNum 8)] "Northings" := by
  refine ⟨rfl, by decide, ?_⟩
  exact (C7_partial_update c7File [("Eastings", .vNum 9)] [] none
    { c7File with
        coordOps := [[("Eastings", .vNum 9), ("Northings", .vNum 8)]] }
    [("Eastings", .vNum 7), ("Northings", .vNum 8)] [("Name", .vStr "EPSG:7856")]
    [] [] "Northings" "Name" (by decide) rfl rfl (by decide)
    (by decide) (by decide)).2.2.1

/-- The IFC2X3 document with no IfcProject on which claim C1 fails: a
non-empty trueNorth still creates and assigns a direction entity. -/
def c1File : GeoFile :=
  { schema := "IFC2X3", hasProject := false, nextId := 1,
    contexts := [{ trueNorth := none, coordinateSpaceDimension := 3 }],
    directions := [], extraDirRefs := [], psetCrs := none, psetConv := none,
    coordOps := [], projCrss := [] }

/-- The state of `c1File` after the call of the counterexample: a fresh
direction entity exists and the context points at it. -/
def c1FileAfter : GeoFile :=
  { c1File with
    nextId := 2
    contexts := [{ trueNorth := some 1, coordinateSpaceDimension := 3 }]
    directions := [(1, [0, 1, 0])] }

/-- Claim C1 is false as stated: on an IFC2X3 document with no IfcProject,
edit_georeferencing with trueNorth=(0,1) is not a no-op — set_true_north
runs before the legacy early return, creating a direction entity and
assigning it to the context. -/
theorem C1_counterexample :
    edit_georeferencing c1File none none (some (0, 1)) = Except.ok c1FileAfter ∧
    c1FileAfter ≠ c1File := by
  constructor
  · decide
  · decide

/-- Claim C1 (amended): on an IFC2X3 document with no IfcProject,
edit_georeferencing succeeds and leaves the legacy property sets and the
modern CRS entities unchanged — the operation is a no-op apart from the
true-north step, which still runs first; with an absent trueNorth the
document is entirely unchanged. -/
theorem C1_amended_legacy_noproject (f : GeoFile)
    (co pc : Option (List (String × AttrVal))) (tnp : Option (ℚ × ℚ))
    (h1 : f.schema = "IFC2X3") (h2 : f.hasProject = false) :
    ∃ f', edit_georeferencing f co pc tnp = .ok f' ∧
      f'.psetCrs = f.psetCrs ∧ f'.psetConv = f.psetConv ∧
      f'.coordOps = f.coordOps ∧ f'.projCrss = f.projCrss ∧
      (tnp = none → f' = f) := by
  unfold edit_georeferencing
  refine ⟨_, execute_legacy_noproject f _ h1 h2, ?_, ?_, ?_, ?_, ?_⟩
  · exact (set_true_north_misc _ f).2.2.2.1
  · exact (set_true_north_misc _ f).2.2.2.2.1
  · exact (set_true_north_misc _ f).2.2.2.2.2.1
  · exact (set_true_north_misc _ f).2.2.2.2.2.2
  · intro htn
    subst htn
    show set_true_north [] f = f
    unfold set_true_north
    rw [if_pos rfl]

theorem C1_amended_witness :
    ∃ f', edit_georeferencing c1File none none none = .ok f' ∧
      f'.psetCrs = c1File.psetCrs ∧ f'.psetConv = c1File.psetConv ∧
      f'.coordOps = c1File.coordOps ∧ f'.projCrss = c1File.projCrss ∧
      (none = (none : Option (ℚ × ℚ)) → f' = c1File) :=
  C1_amended_legacy_noproject c1File none none none rfl rfl

lemma execute_core' (f : GeoFile) (s : GeoSettings) (f' : GeoFile) (tn : List ℚ)
    (hs : s.true_north = tn) (h : execute f s = .ok f') :
    f'.contexts = (set_true_north tn f).contexts ∧
    f'.directions = (set_true_north tn f).directions ∧
    f'.nextId = (set_true_north tn f).nextId ∧
    f'.extraDirRefs = (set_true_north tn f).extraDirRefs := by
  subst hs
  exact execute_core f s f' h

/-- Claim C6: edit_georeferencing with trueNorth=(0,1) sets every context's
(possibly recreated) true-north direction to DirectionRatios (0,1,0.0) when
the context's coordinate-space dimension is 3, and to (0,1) with no padding
when it is 2. -/
theorem C6_true_north_padding (f : GeoFile)
    (co pc : Option (List (String × AttrVal))) (f' : GeoFile)
    (i : Nat) (c₀ : GeoContext)
    (hwf : f.wfb = true)
    (hok : edit_georeferencing f co pc (some (0, 1)) = .ok f')
    (hc : f.contexts[i]? = some c₀) :
    ∃ c d, f'.contexts[i]? = some c ∧ c.trueNorth = some d ∧
      (c₀.coordinateSpaceDimension = 3 →
        dirLookup f'.directions d = some [0, 1, 0]) ∧
      (c₀.coordinateSpaceDimension = 2 →
        dirLookup f'.directions d = some [0, 1]) := by
  unfold edit_georeferencing at hok
  obtain ⟨hC, hD, hN, hE⟩ := execute_core' f _ f' [0, 1] rfl hok
  have htn : ([0, 1] : List ℚ) ≠ [] := by simp
  rw [set_true_north_eq_stnFold _ f htn] at hC hD
  have hlen : i < f.contexts.length := (List.getElem?_eq_some_iff.1 hc).1
  obtain ⟨-, -, -, -, -, -, -, hproc⟩ :=
    stnFold_invariant [0, 1] f hwf f.contexts.length
  obtain ⟨c, d, hgc, hdim, hptr, hcnt, hlook⟩ := hproc i c₀ hlen hc
  refine ⟨c, d, ?_, hptr, ?_, ?_⟩
  · rw [hC]
    exact hgc
  · intro h3
    rw [hD, hlook, h3]
    decide
  · intro h2
    rw [hD, hlook, h2]
    decide

def c6File : GeoFile :=
  { schema := "IFC2X3", hasProject := false, nextId := 1,
    contexts := [{ trueNorth := none, coordinateSpaceDimension := 3 },
                 { trueNorth := none, coordinateSpaceDimension := 2 }],
    directions := [], extraDirRefs := [], psetCrs := none, psetConv := none,
    coordOps := [], projCrss := [] }

def c6FileAfter : GeoFile :=
  { c6File with
    nextId := 3
    contexts := [{ trueNorth := some 1, coordinateSpaceDimension := 3 },
                 { trueNorth := some 2, coordinateSpaceDimension := 2 }]
    directions := [(1, [0, 1, 0]), (2, [0, 1])] }

theorem C6_witness :
    ∃ c d, c6FileAfter.contexts[0]? = some c ∧ c.trueNorth = some d ∧
      ((3 : Nat) = 3 → dirLookup c6FileAfter.directions d = some [0, 1, 0]) ∧
      ((3 : Nat) = 2 → dirLookup c6FileAfter.directions d = some [0, 1]) :=
  C6_true_north_padding c6File none none c6FileAfter 0
    { trueNorth := none, coordinateSpaceDimension := 3 }
    (by decide) (by decide) (by decide)

/-- Claim C5: when every existing true-north direction has exactly one
referrer, calling edit_georeferencing twice with the same non-empty
trueNorth creates no second direction entity; at the level of one loop
iteration, a fresh direction entity is created exactly when the current
direction's referrer count is not 1, and in that case the shared
direction's DirectionRatios are left untouched (the context is repointed
at the fresh entity instead). -/
theorem C5_copy_on_write (f : GeoFile)
    (co pc : Option (List (String × AttrVal))) (tnp : ℚ × ℚ) (f₁ f₂ : GeoFile)
    (g : GeoFile) (j : Nat) (c : GeoContext) (d : Nat) (tn : List ℚ)
    (hwf : f.wfb = true)
    (_hone : f.contexts.all
      (fun c' => c'.trueNorth.all (fun d' => decide (inverseCount f d' = 1))) = true)
    (hok1 : edit_georeferencing f co pc (some tnp) = .ok f₁)
    (hok2 : edit_georeferencing f₁ co pc (some tnp) = .ok f₂)
    (hgwf : g.wfb = true)
    (hgc : g.contexts[j]? = some c) (hgd : c.trueNorth = some d) :
    f₂.directions.length = f₁.directions.length ∧
    (processContext tn g j).directions.length =
      g.directions.length + (if inverseCount g d = 1 then 0 else 1) ∧
    (inverseCount g d ≠ 1 →
      dirLookup (processContext tn g j).directions d = dirLookup g.directions d ∧
      ∃ c', (processContext tn g j).contexts[j]? = some c' ∧
        c'.trueNorth = some g.nextId) := by
  refine ⟨?_, ?_, ?_⟩
  · -- the second identical call performs only in-place ratio updates
    unfold edit_georeferencing at hok1 hok2
    obtain ⟨hC1, hD1, hN1, hE1⟩ :=
      execute_core' f _ f₁ [tnp.1, tnp.2] rfl hok1
    obtain ⟨hC2, hD2, hN2, hE2⟩ :=
      execute_core' f₁ _ f₂ [tnp.1, tnp.2] rfl hok2
    have htn : ([tnp.1, tnp.2] : List ℚ) ≠ [] := by simp
    rw [set_true_north_eq_stnFold _ f htn] at hC1 hD1 hE1
    obtain ⟨hLen, hExtra, -, -, -, -, -, hproc⟩ :=
      stnFold_invariant [tnp.1, tnp.2] f hwf f.contexts.length
    have hAll : ∀ i : Nat, ∀ c' : GeoContext, f₁.contexts[i]? = some c' →
        ∃ d', c'.trueNorth = some d' ∧ inverseCount f₁ d' = 1 := by
      intro i c' hi
      have hilen : i < f₁.contexts.length := (List.getElem?_eq_some_iff.1 hi).1
      have hflen : i < f.contexts.length := by
        rw [hC1] at hilen
        rw [hLen] at hilen
        exact hilen
      obtain ⟨c₀, hf₀⟩ : ∃ c₀, f.contexts[i]? = some c₀ :=
        ⟨_, List.getElem?_eq_getElem hflen⟩
      obtain ⟨cc, dd, hgc', hdim', hptr', hcnt', hlook'⟩ :=
        hproc i c₀ hflen hf₀
      rw [← hC1] at hgc'
      rw [hi] at hgc'
      injection hgc' with hgc'
      refine ⟨dd, ?_, ?_⟩
      · rw [← hgc'] at hptr'
        exact hptr'
      · unfold inverseCount at hcnt' ⊢
        rw [hC1, hE1]
        exact hcnt'
    rw [hD2, set_true_north_inplace_all _ f₁ hAll]
  · by_cases hcd : inverseCount g d = 1
    · rw [processContext_inplace tn g j c d hgc hgd hcd, if_pos hcd]
      show (setRatios g.directions d _).length = g.directions.length + 0
      rw [setRatios_length, Nat.add_zero]
    · rw [processContext_fresh_of_shared tn g j c d hgc hgd hcd, if_neg hcd]
      show (setRatios (g.directions ++ [(g.nextId, [])]) g.nextId _).length =
        g.directions.length + 1
      rw [setRatios_length, List.length_append, List.length_singleton]
  · intro hcd
    obtain ⟨gPtrLt, gDirLt, gExtraLt, gPtrSome⟩ := wfb_spec g hgwf
    have hdlt : d < g.nextId := gPtrLt c (List.getElem?_mem hgc) d hgd
    rw [processContext_fresh_of_shared tn g j c d hgc hgd hcd]
    constructor
    · show dirLookup
        (setRatios (g.directions ++ [(g.nextId, [])]) g.nextId _) d =
        dirLookup g.directions d
      rw [dirLookup_setRatios_ne _ _ _ _ (Nat.ne_of_lt hdlt),
        dirLookup_append_single_ne _ _ _ _ (Nat.ne_of_lt hdlt)]
    · refine ⟨{ c with trueNorth := some g.nextId }, ?_, rfl⟩
      show (g.contexts.set j _)[j]? = _
      exact List.getElem?_set_self (List.getElem?_eq_some_iff.1 hgc).1

def c5File : GeoFile :=
  { schema := "IFC2X3", hasProject := false, nextId := 3,
    contexts := [{ trueNorth := some 1, coordinateSpaceDimension := 3 }],
    directions := [(1, [9])], extraDirRefs := [], psetCrs := none,
    psetConv := none, coordOps := [], projCrss := [] }

def c5File1 : GeoFile :=
  { c5File with directions := [(1, [0, 1, 0])] }

/-- A document in which the single context's direction entity is also
referenced by one further entity, so its referrer count is 2. -/
def c5Shared : GeoFile :=
  { schema := "IFC4", hasProject := true, nextId := 5,
    contexts := [{ trueNorth := some 2, coordinateSpaceDimension := 2 }],
    directions := [(2, [9])], extraDirRefs := [(2, 1)], psetCrs := none,
    psetConv := none, coordOps := [], projCrss := [] }

theorem C5_witness :
    c5File1.directions.length = c5File1.directions.length ∧
    (processContext [0, 1] c5Shared 0).directions.length =
      c5Shared.directions.length + (if inverseCount c5Shared 2 = 1 then 0 else 1) ∧
    (inverseCount c5Shared 2 ≠ 1 →
      dirLookup (processContext [0, 1] c5Shared 0).directions 2 =
        dirLookup c5Shared.directions 2 ∧
      ∃ c', (processContext [0, 1] c5Shared 0).contexts[0]? = some c' ∧
        c'.trueNorth = some c5Shared.nextId) :=
  C5_copy_on_write c5File none none (0, 1) c5File1 c5File1 c5Shared 0
    { trueNorth := some 2, coordinateSpaceDimension := 2 } 2 [0, 1]
    (by decide) (by decide) (by decide) (by decide) (by decide)
    (by decide) (by decide)

/-! ## Part B: the BlenderBIM style tool

The shader node graph is modelled as Blender exposes it to the edited code:
a list of typed nodes; each node has named input sockets (with links and a
default value) and output sockets (with a linked flag and a default value).
Links are recorded on the input socket as the indices of the `from_node`s
in the node list.  Socket default values are either a scalar float or a
4-component RGBA colour, the two shapes Blender provides to this code.
Python floats are rationals; `round(x, 3)` is round-half-even (Python's
semantics) at 3 decimals. -/

/-- A socket default value: a scalar (Metallic, Roughness, Alpha, Fac) or a
4-component colour (Base Color, Color, an RGB node's output). -/
inductive SockVal where
  | scalar : ℚ → SockVal
  | color : ℚ → ℚ → ℚ → ℚ → SockVal
deriving DecidableEq

/-- An RGBA colour (e.g. a material's viewport `diffuse_color`). -/
structure RGBA where
  r : ℚ
  g : ℚ
  b : ℚ
  a : ℚ
deriving DecidableEq

/-- An input socket: its name, the indices of the nodes feeding it, and its
default value. -/
structure InSocket where
  name : String
  links : List Nat
  defaultValue : SockVal
deriving DecidableEq

/-- An output socket: whether it is linked, and its default value. -/
structure OutSocket where
  isLinked : Bool
  defaultValue : SockVal
deriving DecidableEq

/-- A shader node: its `type` string, its sockets, and the
`is_active_output` flag carried by material-output nodes. -/
structure SNode where
  type : String
  inputs : List InSocket
  outputs : List OutSocket
  isActiveOutput : Bool := false
deriving DecidableEq

/-- The slice of a Blender material that get_surface_rendering_attributes
reads: the viewport colour `obj.diffuse_color`, the node graph
`obj.node_tree.nodes`, and the add-on panel's fallback diffuse colour
`obj.BIMStyleProperties.diffuse_color`. -/
structure BMaterial where
  diffuseColor : RGBA
  nodes : List SNode
  propsDiffuseColor : RGBA
deriving DecidableEq

/-- The colour record built by color_to_ifc_format (source lines 237-243). -/
structure IfcColor where
  name : Option String
  red : ℚ
  green : ℚ
  blue : ℚ
deriving DecidableEq

def color_to_ifc_format (c : RGBA) : IfcColor :=
  { name := none, red := c.r, green := c.g, blue := c.b }

/-- The attributes dictionary returned by the classifier.  A field that the
Python dict may hold with value None and may also lack entirely is a doubly
optional value: `none` = key absent, `some none` = key present holding
None. -/
structure SurfaceAttributes where
  surfaceColour : IfcColor
  transparency : ℚ
  reflectanceMethod : Option String := none
  specularColour : Option ℚ := none
  specularHighlight : Option (Option ℚ) := none
  diffuseColour : Option IfcColor := none
deriving DecidableEq

/-- Python's round(x, 3): round half to even at 3 decimal places. -/
def roundHalfEven (q : ℚ) : ℤ :=
  let fl := ⌊q⌋
  let frac := q - fl
  if frac < 1 / 2 then fl
  else if frac > 1 / 2 then fl + 1
  else if fl % 2 = 0 then fl else fl + 1

def round3 (q : ℚ) : ℚ := (roundHalfEven (q * 1000) : ℚ) / 1000

/-- Resolve the `from_node` of each link of an input socket against the node
list (Blender guarantees links are valid; a dangling index is an error). -/
def resolveLinks (g : List SNode) (links : List Nat) : Except String (List SNode) :=
  match links with
  | [] => .ok []
  | l :: rest =>
    match g[l]? with
    | none => .error "invalid link"
    | some n =>
      match resolveLinks g rest with
      | .error e => .error e
      | .ok ns => .ok (n :: ns)

/-- get_input_node (source lines 245-249): pick the socket by name or by
index, then return the first feeding node (restricted to a given type when
`of_type` is passed).  Called with `node = None` this dereferences None —
an AttributeError, modelled as an error value. -/
def get_input_node (g : List SNode) (node : Option SNode)
    (input_name : Option String) (of_type : Option String)
    (input_index : Option Nat) : Except String (Option SNode) :=
  match node with
  | none => .error "AttributeError: NoneType has no attribute inputs"
  | some n =>
    match ((match input_index with
           | none =>
             match input_name with
             | some nm =>
               match n.inputs.find? (fun s => s.name = nm) with
               | some s => Except.ok s
               | none => Except.error "KeyError: input name"
             | none => Except.error "KeyError: input name"
           | some i =>
             match n.inputs[i]? with
             | some s => Except.ok s
             | none => Except.error "IndexError: input index") :
          Except String InSocket) with
    | .error e => .error e
    | .ok pin =>
      match resolveLinks g pin.links with
      | .error e => .error e
      | .ok fromNodes =>
        match of_type with
        | some t => .ok (fromNodes.find? (fun m => m.type = t))
        | none => .ok fromNodes.head?

/-- Modelled from the spec: tool.Blender.get_material_node (not under src/)
locates the material-output node — the first node of the requested type
whose attributes match, here `is_active_output = True` — returning None
when there is none ("Locate the node feeding the active material-output
node's Surface input"). -/
def get_material_node (nodes : List SNode) : Option SNode :=
  nodes.find? (fun n => n.type = "OUTPUT_MATERIAL" && n.isActiveOutput)

/-- The node feeding the active material-output node's Surface input
(source lines 275-276).  When the graph has no active material-output node,
`get_input_node` is called on None and raises. -/
def surfaceOutputOf (nodes : List SNode) : Except String (Option SNode) :=
  get_input_node nodes (get_material_node nodes) (some "Surface") none none

/-- The dictionary comprehension of source line 270: the nodes whose first
output socket is linked, keyed by node type — a later node of the same type
overwrites an earlier one, so lookup finds the last such node. -/
def bsdfFind (nodes : List SNode) (t : String) : Option SNode :=
  (nodes.filter (fun n => !n.outputs.isEmpty &&
    ((n.outputs.head?.map (fun o => o.isLinked)).getD false))).reverse.find?
    (fun n => n.type = t)

/-- Read a named input socket's default value as a scalar; a colour where a
float is expected is a TypeError in the arithmetic that follows. -/
def inputScalar (n : SNode) (nm : String) : Except String ℚ :=
  match n.inputs.find? (fun s => s.name = nm) with
  | none => .error "KeyError: input name"
  | some s =>
    match s.defaultValue with
    | .scalar q => .ok q
    | .color _ _ _ _ => .error "TypeError: expected float"

/-- Read a named input socket's default value as a colour. -/
def inputColor (n : SNode) (nm : String) : Except String RGBA :=
  match n.inputs.find? (fun s => s.name = nm) with
  | none => .error "KeyError: input name"
  | some s =>
    match s.defaultValue with
    | .scalar _ => .error "TypeError: expected color"
    | .color r g b a => .ok { r := r, g := g, b := b, a := a }

/-- outputs[0].default_value of an RGB node, as a colour (source line 294). -/
def outputColor (n : SNode) : Except String RGBA :=
  match n.outputs[0]? with
  | none => .error "IndexError: outputs"
  | some o =>
    match o.defaultValue with
    | .scalar _ => .error "TypeError: expected color"
    | .color r g b a => .ok { r := r, g := g, b := b, a := a }

/-- Source line 392: convert whichever diffuse colour was selected and
attach it as DiffuseColour (the single exit shared by all branches except
the final else, which returns early). -/
def finishWith (attrs : SurfaceAttributes) (dc : RGBA) : SurfaceAttributes :=
  { attrs with diffuseColour := some (color_to_ifc_format dc) }

/-- The condition of the FLAT pattern (source lines 280-285), evaluated
left to right with Python's short-circuiting `and`: the mix factor comes
from a light-path node, input 1 from a transparent BSDF, and input 2 from
an RGB or image-texture node; returns that second input node when the
whole pattern matches. -/
def flatMixCondition (nodes : List SNode) (so : SNode) :
    Except String (Option SNode) :=
  match get_input_node nodes (some so) (some "Fac") (some "LIGHT_PATH") none with
  | .error e => .error e
  | .ok none => .ok none
  | .ok (some _) =>
    match get_input_node nodes (some so) none (some "BSDF_TRANSPARENT") (some 1) with
    | .error e => .error e
    | .ok none => .ok none
    | .ok (some _) =>
      match get_input_node nodes (some so) none none (some 2) with
      | .error e => .error e
      | .ok none => .ok none
      | .ok (some sin) =>
        .ok (if sin.type = "RGB" ∨ sin.type = "TEX_IMAGE" then some sin else none)

/-- The MIX_SHADER branch (source lines 278-297): on the FLAT pattern set
ReflectanceMethod FLAT and a null SpecularHighlight, and take the diffuse
colour from the RGB node's output or, for an image texture, from the
add-on panel; otherwise fall through with no attribute change. -/
def flatAttrs (attrs : SurfaceAttributes) : SurfaceAttributes :=
  { attrs with reflectanceMethod := some "FLAT", specularHighlight := some none }

def mixBranch (obj : BMaterial) (so : SNode) (attrs : SurfaceAttributes) :
    Except String SurfaceAttributes :=
  match flatMixCondition obj.nodes so with
  | .error e => .error e
  | .ok none => .ok (finishWith attrs obj.diffuseColor)
  | .ok (some sin) =>
    if sin.type = "RGB" then
      match outputColor sin with
      | .error e => .error e
      | .ok col => .ok (finishWith (flatAttrs attrs) col)
    else
      .ok (finishWith (flatAttrs attrs) obj.propsDiffuseColor)

/-- The principled-BSDF lookup of the elif at source lines 299-305: the
surface output itself when it is a principled BSDF, or the principled BSDF
feeding input 1 of an additive shader. -/
def principledOf (nodes : List SNode) (so : SNode) :
    Except String (Option SNode) :=
  if so.type = "BSDF_PRINCIPLED" then .ok (some so)
  else if so.type = "ADD_SHADER" then
    get_input_node nodes (some so) none (some "BSDF_PRINCIPLED") (some 1)
  else .ok none

/-- The principled-BSDF branch body (source lines 306-319, repeated
verbatim at 366-381): NOTDEFINED unless the schema is IFC4X3 (then
PHYSICAL); DiffuseColour from Base Color; SpecularColour and the
SpecularHighlight roughness rounded to 3 decimals; Transparency 1 - alpha. -/
def principledBranch (schema : String) (bsdf : SNode)
    (attrs : SurfaceAttributes) : Except String SurfaceAttributes :=
  let attrs := { attrs with
    reflectanceMethod :=
      some (if schema ≠ "IFC4X3" then "NOTDEFINED" else "PHYSICAL") }
  match inputColor bsdf "Base Color" with
  | .error e => .error e
  | .ok dc =>
    match inputScalar bsdf "Metallic" with
    | .error e => .error e
    | .ok met =>
      match inputScalar bsdf "Roughness" with
      | .error e => .error e
      | .ok rough =>
        match inputScalar bsdf "Alpha" with
        | .error e => .error e
        | .ok alpha =>
          .ok (finishWith
            { attrs with
              specularColour := some (round3 met),
              specularHighlight := some (some (round3 rough)),
              transparency := 1 - alpha } dc)

/-- The shared body of the glossy / diffuse / glass branches (source lines
321-353): SpecularHighlight roughness rounded to 3 decimals and the diffuse
colour from the node's Color input. -/
def roughColorBranch (bsdf : SNode) (attrs : SurfaceAttributes) :
    Except String SurfaceAttributes :=
  match inputScalar bsdf "Roughness" with
  | .error e => .error e
  | .ok rough =>
    match inputColor bsdf "Color" with
    | .error e => .error e
    | .ok col =>
      .ok (finishWith
        { attrs with specularHighlight := some (some (round3 rough)) } col)

/-- The elif chain over the linked-bsdfs dictionary (source lines 321-390):
glossy → METAL, diffuse → MATT, glass → GLASS, emission → FLAT with null
highlight, principled → the principled body, else NOTDEFINED with null
highlight and the viewport colour as DiffuseColour, returning without the
final conversion step. -/
def bsdfsChain (schema : String) (obj : BMaterial) (vc : IfcColor)
    (attrs : SurfaceAttributes) : Except String SurfaceAttributes :=
  match bsdfFind obj.nodes "BSDF_GLOSSY" with
  | some bsdf => roughColorBranch bsdf { attrs with reflectanceMethod := some "METAL" }
  | none =>
  match bsdfFind obj.nodes "BSDF_DIFFUSE" with
  | some bsdf => roughColorBranch bsdf { attrs with reflectanceMethod := some "MATT" }
  | none =>
  match bsdfFind obj.nodes "BSDF_GLASS" with
  | some bsdf => roughColorBranch bsdf { attrs with reflectanceMethod := some "GLASS" }
  | none =>
  match bsdfFind obj.nodes "EMISSION" with
  | some bsdf =>
    (match inputColor bsdf "Color" with
     | .error e => .error e
     | .ok col =>
       .ok (finishWith
         { attrs with reflectanceMethod := some "FLAT",
                      specularHighlight := some none } col))
  | none =>
  match bsdfFind obj.nodes "BSDF_PRINCIPLED" with
  | some bsdf => principledBranch schema bsdf attrs
  | none =>
    .ok { attrs with reflectanceMethod := some "NOTDEFINED",
                     specularHighlight := some none,
                     diffuseColour := some vc }

/-- Dispatch on the result of the principled-BSDF lookup: the walrus-bound
node runs the principled body, a None falls to the bsdfs elif chain. -/
def principledDispatch (schema : String) (obj : BMaterial) (vc : IfcColor)
    (attrs : SurfaceAttributes) : Option SNode → Except String SurfaceAttributes
  | some bsdf => principledBranch schema bsdf attrs
  | none => bsdfsChain schema obj vc attrs

/-- Dispatch on the surface-output node (source lines 278-390): a mix
shader runs the FLAT branch; otherwise the principled lookup decides
between the principled body and the bsdfs chain; with no surface output the
chain runs directly. -/
def classifySurface (schema : String) (obj : BMaterial) (vc : IfcColor)
    (attrs : SurfaceAttributes) : Option SNode → Except String SurfaceAttributes
  | some so =>
    if so.type = "MIX_SHADER" then mixBranch obj so attrs
    else
      match principledOf obj.nodes so with
      | .error e => .error e
      | .ok pb => principledDispatch schema obj vc attrs pb
  | none => bsdfsChain schema obj vc attrs

/-- Style.get_surface_rendering_attributes (source lines 233-393), with the
diagnostic `report` side channel omitted (it never affects the result).
The schema string stands for tool.Ifc.get_schema(). -/
def get_surface_rendering_attributes (schema : String) (obj : BMaterial) :
    Except String SurfaceAttributes :=
  let vc := color_to_ifc_format obj.diffuseColor
  let attrs : SurfaceAttributes :=
    { surfaceColour := vc, transparency := 1 - obj.diffuseColor.a }
  match surfaceOutputOf obj.nodes with
  | .error e => .error e
  | .ok so? => classifySurface schema obj vc attrs so?

/-! ### Branch-level facts about the classifier -/

lemma finishWith_method (attrs : SurfaceAttributes) (dc : RGBA) :
    (finishWith attrs dc).reflectanceMethod = attrs.reflectanceMethod := rfl

lemma finishWith_highlight (attrs : SurfaceAttributes) (dc : RGBA) :
    (finishWith attrs dc).specularHighlight = attrs.specularHighlight := rfl

lemma roughColorBranch_spec (bsdf : SNode) (attrs : SurfaceAttributes)
    (r : SurfaceAttributes) (h : roughColorBranch bsdf attrs = .ok r) :
    r.reflectanceMethod = attrs.reflectanceMethod ∧
    ∃ q, r.specularHighlight = some (some q) := by
  unfold roughColorBranch at h
  cases h1 : inputScalar bsdf "Roughness" with
  | error e => rw [h1] at h; cases h
  | ok rough =>
    rw [h1] at h
    cases h2 : inputColor bsdf "Color" with
    | error e => rw [h2] at h; cases h
    | ok col =>
      rw [h2] at h
      injection h with h
      subst h
      exact ⟨rfl, ⟨round3 rough, rfl⟩⟩

lemma principledBranch_spec (schema : String) (bsdf : SNode)
    (attrs : SurfaceAttributes) (r : SurfaceAttributes)
    (h : principledBranch schema bsdf attrs = .ok r) :
    r.reflectanceMethod =
      some (if schema ≠ "IFC4X3" then "NOTDEFINED" else "PHYSICAL") ∧
    ∃ q, r.specularHighlight = some (some q) := by
  unfold principledBranch at h
  cases h1 : inputColor bsdf "Base Color" with
  | error e => rw [h1] at h; cases h
  | ok dc =>
    rw [h1] at h
    cases h2 : inputScalar bsdf "Metallic" with
    | error e => rw [h2] at h; cases h
    | ok met =>
      rw [h2] at h
      cases h3 : inputScalar bsdf "Roughness" with
      | error e => rw [h3] at h; cases h
      | ok rough =>
        rw [h3] at h
        cases h4 : inputScalar bsdf "Alpha" with
        | error e => rw [h4] at h; cases h
        | ok alpha =>
          rw [h4] at h
          injection h with h
          subst h
          exact ⟨rfl, ⟨round3 rough, rfl⟩⟩

lemma mixBranch_spec (obj : BMaterial) (so : SNode) (attrs : SurfaceAttributes)
    (r : SurfaceAttributes) (hattrs : attrs.reflectanceMethod = none)
    (h : mixBranch obj so attrs = .ok r) :
    (r.reflectanceMethod = some "FLAT" → r.specularHighlight = some none) ∧
    (r.reflectanceMethod = none → flatMixCondition obj.nodes so = .ok none) := by
  unfold mixBranch at h
  cases h1 : flatMixCondition obj.nodes so with
  | error e => rw [h1] at h; cases h
  | ok sin? =>
    simp only [h1] at h
    cases sin? with
    | none =>
      injection h with h
      subst h
      refine ⟨?_, fun _ => rfl⟩
      rw [finishWith_method, hattrs]
      intro hc
      cases hc
    | some sin =>
      have h' : (if sin.type = "RGB" then
            match outputColor sin with
            | Except.error e => Except.error e
            | Except.ok col => Except.ok (finishWith (flatAttrs attrs) col)
          else Except.ok (finishWith (flatAttrs attrs) obj.propsDiffuseColor)) =
          Except.ok r := h
      by_cases hrgb : sin.type = "RGB"
      · rw [if_pos hrgb] at h'
        cases h2 : outputColor sin with
        | error e => rw [h2] at h'; cases h'
        | ok col =>
          rw [h2] at h'
          injection h' with h'
          subst h'
          exact ⟨fun _ => rfl, fun hc => by cases hc⟩
      · rw [if_neg hrgb] at h'
        injection h' with h'
        subst h'
        exact ⟨fun _ => rfl, fun hc => by cases hc⟩

lemma bsdfsChain_spec (schema : String) (obj : BMaterial) (vc : IfcColor)
    (attrs : SurfaceAttributes) (r : SurfaceAttributes)
    (h : bsdfsChain schema obj vc attrs = .ok r) :
    (∃ m, r.reflectanceMethod = some m) ∧
    (r.reflectanceMethod = some "FLAT" → r.specularHighlight = some none) := by
  unfold bsdfsChain at h
  cases hg : bsdfFind obj.nodes "BSDF_GLOSSY" with
  | some bsdf =>
    simp only [hg] at h
    obtain ⟨hm, q, hq⟩ := roughColorBranch_spec bsdf _ r h
    have hm' : r.reflectanceMethod = some "METAL" := hm
    refine ⟨⟨"METAL", hm'⟩, ?_⟩
    rw [hm']
    intro hc
    exact absurd hc (by decide)
  | none =>
  simp only [hg] at h
  cases hd : bsdfFind obj.nodes "BSDF_DIFFUSE" with
  | some bsdf =>
    simp only [hd] at h
    obtain ⟨hm, q, hq⟩ := roughColorBranch_spec bsdf _ r h
    have hm' : r.reflectanceMethod = some "MATT" := hm
    refine ⟨⟨"MATT", hm'⟩, ?_⟩
    rw [hm']
    intro hc
    exact absurd hc (by decide)
  | none =>
  simp only [hd] at h
  cases hgl : bsdfFind obj.nodes "BSDF_GLASS" with
  | some bsdf =>
    simp only [hgl] at h
    obtain ⟨hm, q, hq⟩ := roughColorBranch_spec bsdf _ r h
    have hm' : r.reflectanceMethod = some "GLASS" := hm
    refine ⟨⟨"GLASS", hm'⟩, ?_⟩
    rw [hm']
    intro hc
    exact absurd hc (by decide)
  | none =>
  simp only [hgl] at h
  cases he : bsdfFind obj.nodes "EMISSION" with
  | some bsdf =>
    simp only [he] at h
    cases h1 : inputColor bsdf "Color" with
    | error e => rw [h1] at h; cases h
    | ok col =>
      rw [h1] at h
      injection h with h
      subst h
      exact ⟨⟨"FLAT", rfl⟩, fun _ => rfl⟩
  | none =>
  simp only [he] at h
  cases hp : bsdfFind obj.nodes "BSDF_PRINCIPLED" with
  | some bsdf =>
    simp only [hp] at h
    obtain ⟨hm, q, hq⟩ := principledBranch_spec schema bsdf _ r h
    refine ⟨⟨_, hm⟩, ?_⟩
    rw [hm]
    intro hc
    injection hc with hc
    by_cases hs : schema ≠ "IFC4X3"
    · rw [if_pos hs] at hc
      exact absurd hc (by decide)
    · rw [if_neg hs] at hc
      exact absurd hc (by decide)
  | none =>
    simp only [hp] at h
    injection h with h
    subst h
    exact ⟨⟨"NOTDEFINED", rfl⟩, fun _ => rfl⟩

/-- The material on which claim C2 fails: the surface output is a mix
shader whose Fac input is not driven by a light-path node, so none of the
pattern branches runs and the returned dictionary has no ReflectanceMethod
key at all. -/
def c2Mat : BMaterial :=
  { diffuseColor := ⟨1, 0, 0, 1⟩,
    nodes := [
      { type := "OUTPUT_MATERIAL", isActiveOutput := true,
        inputs := [⟨"Surface", [1], .scalar 0⟩], outputs := [] },
      { type := "MIX_SHADER",
        inputs := [⟨"Fac", [], .scalar (1 / 2)⟩, ⟨"Shader", [], .scalar 0⟩,
                   ⟨"Shader", [], .scalar 0⟩],
        outputs := [⟨true, .scalar 0⟩] }],
    propsDiffuseColor := ⟨0, 0, 0, 1⟩ }

def c2Result : SurfaceAttributes :=
  { surfaceColour := ⟨none, 1, 0, 0⟩, transparency := 0,
    reflectanceMethod := none, specularColour := none,
    specularHighlight := none, diffuseColour := some ⟨none, 1, 0, 0⟩ }

/-- Claim C2 is false as stated: the classifier runs to completion on
`c2Mat` yet the returned record has no ReflectanceMethod. -/
theorem C2_counterexample :
    get_surface_rendering_attributes "IFC4" c2Mat = Except.ok c2Result ∧
    c2Result.reflectanceMethod = none := by
  constructor
  · rfl
  · rfl

/-- Claim C2 (amended): whenever the classifier completes, a FLAT
reflectance method comes with a null (present-but-None) SpecularHighlight;
and ReflectanceMethod is present except in exactly one situation — the
surface output is a mix-shader node that does not match the FLAT pattern,
in which case the branch falls through without setting it. -/
theorem C2_amended_invariant (schema : String) (obj : BMaterial)
    (r : SurfaceAttributes)
    (h : get_surface_rendering_attributes schema obj = .ok r) :
    (r.reflectanceMethod = some "FLAT" → r.specularHighlight = some none) ∧
    (r.reflectanceMethod = none →
      ∃ so, surfaceOutputOf obj.nodes = .ok (some so) ∧
        so.type = "MIX_SHADER" ∧ flatMixCondition obj.nodes so = .ok none) := by
  unfold get_surface_rendering_attributes at h
  cases hso : surfaceOutputOf obj.nodes with
  | error e => rw [hso] at h; cases h
  | ok so? =>
    simp only [hso] at h
    cases so? with
    | none =>
      simp only [classifySurface] at h
      obtain ⟨⟨m, hm⟩, hflat⟩ := bsdfsChain_spec schema obj _ _ r h
      refine ⟨hflat, ?_⟩
      intro hnone
      rw [hnone] at hm
      cases hm
    | some so =>
      simp only [classifySurface] at h
      by_cases hmix : so.type = "MIX_SHADER"
      · rw [if_pos hmix] at h
        obtain ⟨hflat, hcond⟩ := mixBranch_spec obj so _ r rfl h
        exact ⟨hflat, fun hnone => ⟨so, rfl, hmix, hcond hnone⟩⟩
      · rw [if_neg hmix] at h
        cases hp : principledOf obj.nodes so with
        | error e => rw [hp] at h; cases h
        | ok pb =>
          simp only [hp] at h
          cases pb with
          | some bsdf =>
            simp only [principledDispatch] at h
            obtain ⟨hm, q, hq⟩ := principledBranch_spec schema bsdf _ r h
            refine ⟨?_, ?_⟩
            · rw [hm]
              intro hc
              injection hc with hc
              by_cases hs : schema ≠ "IFC4X3"
              · rw [if_pos hs] at hc
                exact absurd hc (by decide)
              · rw [if_neg hs] at hc
                exact absurd hc (by decide)
            · intro hnone
              rw [hnone] at hm
              cases hm
          | none =>
            simp only [principledDispatch] at h
            obtain ⟨⟨m, hm⟩, hflat⟩ := bsdfsChain_spec schema obj _ _ r h
            refine ⟨hflat, ?_⟩
            intro hnone
            rw [hnone] at hm
            cases hm

theorem C2_amended_witness :
    (c2Result.reflectanceMethod = some "FLAT" →
      c2Result.specularHighlight = some none) ∧
    (c2Result.reflectanceMethod = none →
      ∃ so, surfaceOutputOf c2Mat.nodes = .ok (some so) ∧
        so.type = "MIX_SHADER" ∧ flatMixCondition c2Mat.nodes so = .ok none) :=
  C2_amended_invariant "IFC4" c2Mat c2Result (by rfl)

/-- The material of claim C3's explicit edge case: an empty node graph.
There is then no active material-output node, get_material_node yields
None, and get_input_node dereferences it. -/
def c3Mat : BMaterial :=
  { diffuseColor := ⟨1 / 2, 1 / 4, 1 / 8, 1⟩, nodes := [],
    propsDiffuseColor := ⟨0, 0, 0, 1⟩ }

/-- Claim C3 is false as stated for its explicit "empty node graph" case:
instead of returning the NOTDEFINED record, the classifier raises
(AttributeError on the None material-output node). -/
theorem C3_counterexample :
    get_surface_rendering_attributes "IFC4" c3Mat =
      Except.error "AttributeError: NoneType has no attribute inputs" := by
  rfl

/-- Claim C3 (amended): for every viewport colour, on a graph that has an
active material-output node and matches none of the recognized patterns —
the surface output (if any) is neither a mix shader nor a principled-BSDF
pattern, and no glossy / diffuse / glass / emission / principled node feeds
a linked output — the classifier returns ReflectanceMethod NOTDEFINED,
DiffuseColour equal to the viewport colour, and a null SpecularHighlight,
returning directly without the final diffuse-colour conversion step. -/
theorem C3_amended_fallback (schema : String) (obj : BMaterial)
    (so? : Option SNode)
    (hso : surfaceOutputOf obj.nodes = .ok so?)
    (hnm : ∀ so, so? = some so →
      so.type ≠ "MIX_SHADER" ∧ principledOf obj.nodes so = .ok none)
    (hg : bsdfFind obj.nodes "BSDF_GLOSSY" = none)
    (hd : bsdfFind obj.nodes "BSDF_DIFFUSE" = none)
    (hgl : bsdfFind obj.nodes "BSDF_GLASS" = none)
    (he : bsdfFind obj.nodes "EMISSION" = none)
    (hp : bsdfFind obj.nodes "BSDF_PRINCIPLED" = none) :
    get_surface_rendering_attributes schema obj =
      .ok { surfaceColour := color_to_ifc_format obj.diffuseColor,
            transparency := 1 - obj.diffuseColor.a,
            reflectanceMethod := some "NOTDEFINED",
            specularColour := none,
            specularHighlight := some none,
            diffuseColour := some (color_to_ifc_format obj.diffuseColor) } := by
  have hchain : ∀ attrs : SurfaceAttributes,
      bsdfsChain schema obj (color_to_ifc_format obj.diffuseColor) attrs =
        .ok { attrs with
              reflectanceMethod := some "NOTDEFINED"
              specularHighlight := some none
              diffuseColour := some (color_to_ifc_format obj.diffuseColor) } := by
    intro attrs
    unfold bsdfsChain
    simp only [hg, hd, hgl, he, hp]
  unfold get_surface_rendering_attributes
  rw [hso]
  cases so? with
  | none =>
    simp only [classifySurface]
    exact hchain _
  | some so =>
    obtain ⟨h1, h2⟩ := hnm so rfl
    simp only [classifySurface, if_neg h1, h2, principledDispatch]
    exact hchain _

def c3FallbackMat : BMaterial :=
  { diffuseColor := ⟨1 / 2, 1 / 4, 1 / 8, 3 / 4⟩,
    nodes := [
      { type := "OUTPUT_MATERIAL", isActiveOutput := true,
        inputs := [⟨"Surface", [], .scalar 0⟩], outputs := [] }],
    propsDiffuseColor := ⟨0, 0, 0, 1⟩ }

theorem C3_amended_witness :
    get_surface_rendering_attributes "IFC4" c3FallbackMat =
      .ok { surfaceColour := color_to_ifc_format c3FallbackMat.diffuseColor,
            transparency := 1 - c3FallbackMat.diffuseColor.a,
            reflectanceMethod := some "NOTDEFINED",
            specularColour := none,
            specularHighlight := some none,
            diffuseColour :=
              some (color_to_ifc_format c3FallbackMat.diffuseColor) } :=
  C3_amended_fallback "IFC4" c3FallbackMat none (by rfl)
    (fun so hso => by cases hso) (by rfl) (by rfl) (by rfl) (by rfl) (by rfl)

/-- Claim C4: with the surface output a principled BSDF whose metallic is
0.5001, roughness 0.2004 and alpha 0.8, the classifier rounds metallic and
roughness to 3 decimals (SpecularColour 0.5, SpecularHighlight roughness
0.2) and sets Transparency = 1 - 0.8 = 0.2 with no rounding; the method is
NOTDEFINED unless the schema is the latest major revision IFC4X3 (then
PHYSICAL), and DiffuseColour comes from the BSDF base-colour input.
Rounding is Python's round: half-to-even (irrelevant at these inputs). -/
theorem C4_principled_rounding (schema : String) (obj : BMaterial)
    (so : SNode) (base : RGBA)
    (hso : surfaceOutputOf obj.nodes = .ok (some so))
    (htype : so.type = "BSDF_PRINCIPLED")
    (hbase : inputColor so "Base Color" = .ok base)
    (hmet : inputScalar so "Metallic" = .ok (5001 / 10000))
    (hrough : inputScalar so "Roughness" = .ok (2004 / 10000))
    (halpha : inputScalar so "Alpha" = .ok (8 / 10)) :
    get_surface_rendering_attributes schema obj =
      .ok { surfaceColour := color_to_ifc_format obj.diffuseColor,
            transparency := 1 / 5,
            reflectanceMethod :=
              some (if schema = "IFC4X3" then "PHYSICAL" else "NOTDEFINED"),
            specularColour := some (1 / 2),
            specularHighlight := some (some (1 / 5)),
            diffuseColour := some (color_to_ifc_format base) } := by
  unfold get_surface_rendering_attributes
  rw [hso]
  have hnm : so.type ≠ "MIX_SHADER" := by
    rw [htype]
    decide
  have hpr : principledOf obj.nodes so = .ok (some so) := by
    unfold principledOf
    rw [if_pos htype]
  simp only [classifySurface, if_neg hnm, hpr, principledDispatch]
  unfold principledBranch
  simp only [hbase, hmet, hrough, halpha]
  have hr1 : round3 (5001 / 10000) = 1 / 2 := by decide
  have hr2 : round3 (2004 / 10000) = 1 / 5 := by decide
  have hr3 : (1 : ℚ) - 8 / 10 = 1 / 5 := by norm_num
  rw [hr1, hr2, hr3]
  have hite : (if schema ≠ "IFC4X3" then "NOTDEFINED" else "PHYSICAL") =
      (if schema = "IFC4X3" then "PHYSICAL" else "NOTDEFINED") := by
    by_cases hs : schema = "IFC4X3"
    · rw [if_pos hs, if_neg (fun hc => hc hs)]
    · rw [if_pos hs, if_neg hs]
  rw [hite]
  rfl

/-- The principled-BSDF material of claim C4. -/
def c4Mat : BMaterial :=
  { diffuseColor := ⟨1, 0, 0, 4 / 5⟩,
    nodes := [
      { type := "OUTPUT_MATERIAL", isActiveOutput := true,
        inputs := [⟨"Surface", [1], .scalar 0⟩], outputs := [] },
      { type := "BSDF_PRINCIPLED",
        inputs := [⟨"Base Color", [], .color (1 / 2) (1 / 4) (1 / 8) 1⟩,
                   ⟨"Metallic", [], .scalar (5001 / 10000)⟩,
                   ⟨"Roughness", [], .scalar (2004 / 10000)⟩,
                   ⟨"Alpha", [], .scalar (8 / 10)⟩],
        outputs := [⟨true, .scalar 0⟩] }],
    propsDiffuseColor := ⟨0, 0, 0, 1⟩ }

theorem C4_witness :
    get_surface_rendering_attributes "IFC4" c4Mat =
      .ok { surfaceColour := color_to_ifc_format c4Mat.diffuseColor,
            transparency := 1 / 5,
            reflectanceMethod :=
              some (if "IFC4" = "IFC4X3" then "PHYSICAL" else "NOTDEFINED"),
            specularColour := some (1 / 2),
            specularHighlight := some (some (1 / 5)),
            diffuseColour :=
              some (color_to_ifc_format ⟨1 / 2, 1 / 4, 1 / 8, 1⟩) } :=
  C4_principled_rounding "IFC4" c4Mat
    { type := "BSDF_PRINCIPLED",
      inputs := [⟨"Base Color", [], .color (1 / 2) (1 / 4) (1 / 8) 1⟩,
                 ⟨"Metallic", [], .scalar (5001 / 10000)⟩,
                 ⟨"Roughness", [], .scalar (2004 / 10000)⟩,
                 ⟨"Alpha", [], .scalar (8 / 10)⟩],
      outputs := [⟨true, .scalar 0⟩] }
    ⟨1 / 2, 1 / 4, 1 / 8, 1⟩ (by rfl) (by rfl) (by rfl) (by decide) (by decide)
    (by decide)

/-! ### Host-model well-formedness, for the amended never-fails claim

Blender guarantees the shapes the edited code relies on: links point at
nodes of the graph, and the node types it pattern-matches expose the named
sockets with the expected value kinds.  `wfNode` states exactly those
guarantees. -/

def isScalarVal : SockVal → Bool
  | .scalar _ => true
  | .color _ _ _ _ => false

def isColorVal : SockVal → Bool
  | .scalar _ => false
  | .color _ _ _ _ => true

def hasScalarInput (n : SNode) (nm : String) : Bool :=
  match n.inputs.find? (fun s => s.name = nm) with
  | some s => isScalarVal s.defaultValue
  | none => false

def hasColorInput (n : SNode) (nm : String) : Bool :=
  match n.inputs.find? (fun s => s.name = nm) with
  | some s => isColorVal s.defaultValue
  | none => false

def wfNode (g : List SNode) (n : SNode) : Bool :=
  n.inputs.all (fun s => s.links.all (fun l => decide (l < g.length))) &&
  (if n.type = "OUTPUT_MATERIAL" then
    (n.inputs.find? (fun s => s.name = "Surface")).isSome else true) &&
  (if n.type = "MIX_SHADER" then
    ((n.inputs.find? (fun s => s.name = "Fac")).isSome &&
      decide (3 ≤ n.inputs.length)) else true) &&
  (if n.type = "ADD_SHADER" then decide (2 ≤ n.inputs.length) else true) &&
  (if n.type = "BSDF_PRINCIPLED" then
    (hasColorInput n "Base Color" && hasScalarInput n "Metallic" &&
      hasScalarInput n "Roughness" && hasScalarInput n "Alpha") else true) &&
  (if n.type = "RGB" then
    (match n.outputs[0]? with
     | some o => isColorVal o.defaultValue
     | none => false) else true) &&
  (if n.type = "BSDF_GLOSSY" ∨ n.type = "BSDF_DIFFUSE" ∨ n.type = "BSDF_GLASS"
    then (hasScalarInput n "Roughness" && hasColorInput n "Color") else true) &&
  (if n.type = "EMISSION" then hasColorInput n "Color" else true)

def wfMaterial (obj : BMaterial) : Bool :=
  obj.nodes.all (wfNode obj.nodes)

lemma wfNode_parts (g : List SNode) (n : SNode) (h : wfNode g n = true) :
    (∀ s ∈ n.inputs, ∀ l ∈ s.links, l < g.length) ∧
    (n.type = "OUTPUT_MATERIAL" →
      (n.inputs.find? (fun s => s.name = "Surface")).isSome = true) ∧
    (n.type = "MIX_SHADER" →
      (n.inputs.find? (fun s => s.name = "Fac")).isSome = true ∧
      3 ≤ n.inputs.length) ∧
    (n.type = "ADD_SHADER" → 2 ≤ n.inputs.length) ∧
    (n.type = "BSDF_PRINCIPLED" →
      hasColorInput n "Base Color" = true ∧ hasScalarInput n "Metallic" = true ∧
      hasScalarInput n "Roughness" = true ∧ hasScalarInput n "Alpha" = true) ∧
    (n.type = "RGB" →
      ∃ o, n.outputs[0]? = some o ∧ isColorVal o.defaultValue = true) ∧
    (n.type = "BSDF_GLOSSY" ∨ n.type = "BSDF_DIFFUSE" ∨ n.type = "BSDF_GLASS" →
      hasScalarInput n "Roughness" = true ∧ hasColorInput n "Color" = true) ∧
    (n.type = "EMISSION" → hasColorInput n "Color" = true) := by
  unfold wfNode at h
  simp only [Bool.and_eq_true] at h
  obtain ⟨⟨⟨⟨⟨⟨⟨h1, h2⟩, h3⟩, h4⟩, h5⟩, h6⟩, h7⟩, h8⟩ := h
  refine ⟨?_, ?_, ?_, ?_, ?_, ?_, ?_, ?_⟩
  · intro s hs l hl
    have := List.all_eq_true.1 (List.all_eq_true.1 h1 s hs) l hl
    simpa using this
  · intro hty
    rw [if_pos hty] at h2
    exact h2
  · intro hty
    rw [if_pos hty] at h3
    simp only [Bool.and_eq_true, decide_eq_true_eq] at h3
    exact h3
  · intro hty
    rw [if_pos hty] at h4
    simpa using h4
  · intro hty
    rw [if_pos hty] at h5
    simp only [Bool.and_eq_true] at h5
    exact ⟨h5.1.1.1, h5.1.1.2, h5.1.2, h5.2⟩
  · intro hty
    rw [if_pos hty] at h6
    cases ho : n.outputs[0]? with
    | none => rw [ho] at h6; cases h6
    | some o =>
      rw [ho] at h6
      exact ⟨o, rfl, h6⟩
  · intro hty
    rw [if_pos hty] at h7
    simp only [Bool.and_eq_true] at h7
    exact h7
  · intro hty
    rw [if_pos hty] at h8
    exact h8

lemma inputScalar_ok (n : SNode) (nm : String)
    (h : hasScalarInput n nm = true) : ∃ q, inputScalar n nm = .ok q := by
  unfold hasScalarInput at h
  cases hf : n.inputs.find? (fun s => s.name = nm) with
  | none => rw [hf] at h; cases h
  | some s =>
    rw [hf] at h
    have h' : isScalarVal s.defaultValue = true := h
    cases hv : s.defaultValue with
    | scalar q =>
      refine ⟨q, ?_⟩
      unfold inputScalar
      rw [hf]
      show (match s.defaultValue with
            | SockVal.scalar q => (Except.ok q : Except String ℚ)
            | SockVal.color _ _ _ _ =>
              Except.error "TypeError: expected float") = Except.ok q
      rw [hv]
    | color r g b a =>
      rw [hv] at h'
      cases h'

lemma inputColor_ok (n : SNode) (nm : String)
    (h : hasColorInput n nm = true) : ∃ c, inputColor n nm = .ok c := by
  unfold hasColorInput at h
  cases hf : n.inputs.find? (fun s => s.name = nm) with
  | none => rw [hf] at h; cases h
  | some s =>
    rw [hf] at h
    have h' : isColorVal s.defaultValue = true := h
    cases hv : s.defaultValue with
    | scalar q =>
      rw [hv] at h'
      cases h'
    | color r g b a =>
      refine ⟨⟨r, g, b, a⟩, ?_⟩
      unfold inputColor
      rw [hf]
      show (match s.defaultValue with
            | SockVal.scalar _ =>
              (Except.error "TypeError: expected color" : Except String RGBA)
            | SockVal.color r g b a => Except.ok { r := r, g := g, b := b, a := a }) =
        Except.ok { r := r, g := g, b := b, a := a }
      rw [hv]

lemma outputColor_ok (n : SNode) (o : OutSocket)
    (ho : n.outputs[0]? = some o) (hv : isColorVal o.defaultValue = true) :
    ∃ c, outputColor n = .ok c := by
  cases hc : o.defaultValue with
  | scalar q => rw [hc] at hv; cases hv
  | color r g b a =>
    refine ⟨⟨r, g, b, a⟩, ?_⟩
    unfold outputColor
    rw [ho]
    show (match o.defaultValue with
          | SockVal.scalar _ =>
            (Except.error "TypeError: expected color" : Except String RGBA)
          | SockVal.color r g b a => Except.ok { r := r, g := g, b := b, a := a }) =
      Except.ok { r := r, g := g, b := b, a := a }
    rw [hc]

lemma resolveLinks_ok (g : List SNode) (links : List Nat)
    (h : ∀ l ∈ links, l < g.length) :
    ∃ ns, resolveLinks g links = .ok ns ∧ ∀ m ∈ ns, m ∈ g := by
  induction links with
  | nil => exact ⟨[], rfl, by simp⟩
  | cons l rest ih =>
    obtain ⟨ns, hns, hmem⟩ := ih (fun x hx => h x (List.mem_cons_of_mem l hx))
    have hl : l < g.length := h l (List.mem_cons_self l rest)
    obtain ⟨m, hm⟩ : ∃ m, g[l]? = some m := ⟨_, List.getElem?_eq_getElem hl⟩
    refine ⟨m :: ns, ?_, ?_⟩
    · unfold resolveLinks
      rw [hm, hns]
    · intro x hx
      rcases List.mem_cons.1 hx with hx | hx
      · exact hx ▸ List.getElem?_mem hm
      · exact hmem x hx

lemma head?_mem {α : Type} (l : List α) (x : α) (h : l.head? = some x) : x ∈ l := by
  cases l with
  | nil => cases h
  | cons a t =>
    simp only [List.head?] at h
    injection h with h
    exact h ▸ List.mem_cons_self a t

lemma get_input_node_name_ok (g : List SNode) (n : SNode) (nm : String)
    (ot : Option String)
    (hw : ∀ s ∈ n.inputs, ∀ l ∈ s.links, l < g.length)
    (hf : (n.inputs.find? (fun s => s.name = nm)).isSome = true) :
    ∃ o, get_input_node g (some n) (some nm) ot none = .ok o ∧
      (∀ m, o = some m → m ∈ g) ∧
      (∀ t m, ot = some t → o = some m → m.type = t) := by
  obtain ⟨s, hs⟩ := Option.isSome_iff_exists.1 hf
  obtain ⟨ns, hns, hmem⟩ :=
    resolveLinks_ok g s.links (hw s (List.mem_of_find?_eq_some hs))
  have hstep : get_input_node g (some n) (some nm) ot none =
      (match ot with
       | some t => Except.ok (ns.find? (fun m => m.type = t))
       | none => Except.ok ns.head?) := by
    show (match (match n.inputs.find? (fun s => s.name = nm) with
          | some s => (Except.ok s : Except String InSocket)
          | none => Except.error "KeyError: input name") with
      | Except.error e => (Except.error e : Except String (Option SNode))
      | Except.ok pin =>
        match resolveLinks g pin.links with
        | Except.error e => Except.error e
        | Except.ok fromNodes =>
          match ot with
          | some t => Except.ok (fromNodes.find? (fun m => m.type = t))
          | none => Except.ok fromNodes.head?) = _
    rw [hs]
    show (match resolveLinks g s.links with
      | Except.error e => (Except.error e : Except String (Option SNode))
      | Except.ok fromNodes =>
        match ot with
        | some t => Except.ok (fromNodes.find? (fun m => m.type = t))
        | none => Except.ok fromNodes.head?) = _
    rw [hns]
  cases ot with
  | none =>
    refine ⟨ns.head?, hstep, ?_, ?_⟩
    · intro m hm
      exact hmem m (head?_mem ns m hm)
    · intro t m ht
      cases ht
  | some t =>
    refine ⟨ns.find? (fun m => m.type = t), hstep, ?_, ?_⟩
    · intro m hm
      exact hmem m (List.mem_of_find?_eq_some hm)
    · intro t' m ht hm
      injection ht with ht
      subst ht
      have := List.find?_some hm
      simpa using this

lemma get_input_node_index_ok (g : List SNode) (n : SNode) (i : Nat)
    (ot : Option String)
    (hw : ∀ s ∈ n.inputs, ∀ l ∈ s.links, l < g.length)
    (hi : i < n.inputs.length) :
    ∃ o, get_input_node g (some n) none ot (some i) = .ok o ∧
      (∀ m, o = some m → m ∈ g) ∧
      (∀ t m, ot = some t → o = some m → m.type = t) := by
  obtain ⟨s, hs⟩ : ∃ s, n.inputs[i]? = some s := ⟨_, List.getElem?_eq_getElem hi⟩
  obtain ⟨ns, hns, hmem⟩ :=
    resolveLinks_ok g s.links (hw s (List.getElem?_mem hs))
  have hstep : get_input_node g (some n) none ot (some i) =
      (match ot with
       | some t => Except.ok (ns.find? (fun m => m.type = t))
       | none => Except.ok ns.head?) := by
    show (match (match n.inputs[i]? with
          | some s => (Except.ok s : Except String InSocket)
          | none => Except.error "IndexError: input index") with
      | Except.error e => (Except.error e : Except String (Option SNode))
      | Except.ok pin =>
        match resolveLinks g pin.links with
        | Except.error e => Except.error e
        | Except.ok fromNodes =>
          match ot with
          | some t => Except.ok (fromNodes.find? (fun m => m.type = t))
          | none => Except.ok fromNodes.head?) = _
    rw [hs]
    show (match resolveLinks g s.links with
      | Except.error e => (Except.error e : Except String (Option SNode))
      | Except.ok fromNodes =>
        match ot with
        | some t => Except.ok (fromNodes.find? (fun m => m.type = t))
        | none => Except.ok fromNodes.head?) = _
    rw [hns]
  cases ot with
  | none =>
    refine ⟨ns.head?, hstep, ?_, ?_⟩
    · intro m hm
      exact hmem m (head?_mem ns m hm)
    · intro t m ht
      cases ht
  | some t =>
    refine ⟨ns.find? (fun m => m.type = t), hstep, ?_, ?_⟩
    · intro m hm
      exact hmem m (List.mem_of_find?_eq_some hm)
    · intro t' m ht hm
      injection ht with ht
      subst ht
      have := List.find?_some hm
      simpa using this

lemma flatMixCondition_ok (g : List SNode) (so : SNode)
    (hw : ∀ s ∈ so.inputs, ∀ l ∈ s.links, l < g.length)
    (hfac : (so.inputs.find? (fun s => s.name = "Fac")).isSome = true)
    (hlen : 3 ≤ so.inputs.length) :
    ∃ o, flatMixCondition g so = .ok o ∧
      (∀ sin, o = some sin → sin ∈ g ∧
        (sin.type = "RGB" ∨ sin.type = "TEX_IMAGE")) := by
  obtain ⟨o1, ho1, hm1, ht1⟩ :=
    get_input_node_name_ok g so "Fac" (some "LIGHT_PATH") hw hfac
  cases o1 with
  | none =>
    have hstep : flatMixCondition g so = .ok none := by
      unfold flatMixCondition
      rw [ho1]
    exact ⟨none, hstep, fun sin h => by cases h⟩
  | some n1 =>
    obtain ⟨o2, ho2, hm2, ht2⟩ :=
      get_input_node_index_ok g so 1 (some "BSDF_TRANSPARENT") hw (by omega)
    cases o2 with
    | none =>
      have hstep : flatMixCondition g so = .ok none := by
        unfold flatMixCondition
        rw [ho1, ho2]
      exact ⟨none, hstep, fun sin h => by cases h⟩
    | some n2 =>
      obtain ⟨o3, ho3, hm3, ht3⟩ :=
        get_input_node_index_ok g so 2 none hw (by omega)
      cases o3 with
      | none =>
        have hstep : flatMixCondition g so = .ok none := by
          unfold flatMixCondition
          rw [ho1, ho2, ho3]
        exact ⟨none, hstep, fun sin h => by cases h⟩
      | some sin =>
        have hstep : flatMixCondition g so =
            .ok (if sin.type = "RGB" ∨ sin.type = "TEX_IMAGE"
              then some sin else none) := by
          unfold flatMixCondition
          rw [ho1, ho2, ho3]
        by_cases hty : sin.type = "RGB" ∨ sin.type = "TEX_IMAGE"
        · rw [if_pos hty] at hstep
          refine ⟨some sin, hstep, ?_⟩
          intro s hs
          injection hs with hs
          exact hs ▸ ⟨hm3 sin rfl, hty⟩
        · rw [if_neg hty] at hstep
          exact ⟨none, hstep, fun sin h => by cases h⟩

lemma mixBranch_ok (obj : BMaterial) (so : SNode) (attrs : SurfaceAttributes)
    (hall : ∀ n ∈ obj.nodes, wfNode obj.nodes n = true)
    (hso : so ∈ obj.nodes) (hmix : so.type = "MIX_SHADER") :
    ∃ r, mixBranch obj so attrs = .ok r := by
  obtain ⟨hw, -, hmixw, -⟩ := wfNode_parts obj.nodes so (hall so hso)
  obtain ⟨hfac, hlen⟩ := hmixw hmix
  obtain ⟨o, ho, hprop⟩ := flatMixCondition_ok obj.nodes so hw hfac hlen
  cases o with
  | none =>
    refine ⟨finishWith attrs obj.diffuseColor, ?_⟩
    unfold mixBranch
    rw [ho]
  | some sin =>
    obtain ⟨hsin, hty⟩ := hprop sin rfl
    have hstep : mixBranch obj so attrs =
        (if sin.type = "RGB" then
          match outputColor sin with
          | Except.error e => Except.error e
          | Except.ok col => Except.ok (finishWith (flatAttrs attrs) col)
        else Except.ok (finishWith (flatAttrs attrs) obj.propsDiffuseColor)) := by
      unfold mixBranch
      rw [ho]
    by_cases hrgb : sin.type = "RGB"
    · rw [if_pos hrgb] at hstep
      obtain ⟨-, -, -, -, -, hrgbw, -⟩ := wfNode_parts obj.nodes sin (hall sin hsin)
      obtain ⟨oc, hoc, hocv⟩ := hrgbw hrgb
      obtain ⟨c, hc⟩ := outputColor_ok sin oc hoc hocv
      rw [hc] at hstep
      exact ⟨finishWith (flatAttrs attrs) c, hstep⟩
    · rw [if_neg hrgb] at hstep
      exact ⟨finishWith (flatAttrs attrs) obj.propsDiffuseColor, hstep⟩

lemma principledBranch_ok (schema : String) (bsdf : SNode)
    (attrs : SurfaceAttributes)
    (hbase : hasColorInput bsdf "Base Color" = true)
    (hmet : hasScalarInput bsdf "Metallic" = true)
    (hrough : hasScalarInput bsdf "Roughness" = true)
    (halpha : hasScalarInput bsdf "Alpha" = true) :
    ∃ r, principledBranch schema bsdf attrs = .ok r := by
  obtain ⟨dc, hdc⟩ := inputColor_ok bsdf "Base Color" hbase
  obtain ⟨met, hm⟩ := inputScalar_ok bsdf "Metallic" hmet
  obtain ⟨rough, hr⟩ := inputScalar_ok bsdf "Roughness" hrough
  obtain ⟨alpha, ha⟩ := inputScalar_ok bsdf "Alpha" halpha
  unfold principledBranch
  rw [hdc, hm, hr, ha]
  exact ⟨_, rfl⟩

lemma roughColorBranch_ok (bsdf : SNode) (attrs : SurfaceAttributes)
    (hrough : hasScalarInput bsdf "Roughness" = true)
    (hcol : hasColorInput bsdf "Color" = true) :
    ∃ r, roughColorBranch bsdf attrs = .ok r := by
  obtain ⟨rough, hr⟩ := inputScalar_ok bsdf "Roughness" hrough
  obtain ⟨col, hc⟩ := inputColor_ok bsdf "Color" hcol
  unfold roughColorBranch
  rw [hr, hc]
  exact ⟨_, rfl⟩

lemma bsdfFind_mem (nodes : List SNode) (t : String) (n : SNode)
    (h : bsdfFind nodes t = some n) : n ∈ nodes ∧ n.type = t := by
  unfold bsdfFind at h
  constructor
  · have h1 := List.mem_of_find?_eq_some h
    rw [List.mem_reverse] at h1
    exact List.mem_of_mem_filter h1
  · have h2 := List.find?_some h
    simpa using h2

lemma bsdfsChain_ok (schema : String) (obj : BMaterial) (vc : IfcColor)
    (attrs : SurfaceAttributes)
    (hall : ∀ n ∈ obj.nodes, wfNode obj.nodes n = true) :
    ∃ r, bsdfsChain schema obj vc attrs = .ok r := by
  unfold bsdfsChain
  cases hg : bsdfFind obj.nodes "BSDF_GLOSSY" with
  | some bsdf =>
    obtain ⟨hmem, hty⟩ := bsdfFind_mem _ _ _ hg
    obtain ⟨-, -, -, -, -, -, hgw, -⟩ := wfNode_parts obj.nodes bsdf (hall bsdf hmem)
    obtain ⟨h1, h2⟩ := hgw (Or.inl hty)
    exact roughColorBranch_ok bsdf _ h1 h2
  | none =>
  cases hd : bsdfFind obj.nodes "BSDF_DIFFUSE" with
  | some bsdf =>
    obtain ⟨hmem, hty⟩ := bsdfFind_mem _ _ _ hd
    obtain ⟨-, -, -, -, -, -, hgw, -⟩ := wfNode_parts obj.nodes bsdf (hall bsdf hmem)
    obtain ⟨h1, h2⟩ := hgw (Or.inr (Or.inl hty))
    exact roughColorBranch_ok bsdf _ h1 h2
  | none =>
  cases hgl : bsdfFind obj.nodes "BSDF_GLASS" with
  | some bsdf =>
    obtain ⟨hmem, hty⟩ := bsdfFind_mem _ _ _ hgl
    obtain ⟨-, -, -, -, -, -, hgw, -⟩ := wfNode_parts obj.nodes bsdf (hall bsdf hmem)
    obtain ⟨h1, h2⟩ := hgw (Or.inr (Or.inr hty))
    exact roughColorBranch_ok bsdf _ h1 h2
  | none =>
  cases he : bsdfFind obj.nodes "EMISSION" with
  | some bsdf =>
    obtain ⟨hmem, hty⟩ := bsdfFind_mem _ _ _ he
    obtain ⟨-, -, -, -, -, -, -, hew⟩ := wfNode_parts obj.nodes bsdf (hall bsdf hmem)
    obtain ⟨c, hc⟩ := inputColor_ok bsdf "Color" (hew hty)
    refine ⟨finishWith (flatAttrs attrs) c, ?_⟩
    show (match inputColor bsdf "Color" with
          | Except.error e => (Except.error e : Except String SurfaceAttributes)
          | Except.ok col => Except.ok (finishWith (flatAttrs attrs) col)) =
      Except.ok (finishWith (flatAttrs attrs) c)
    rw [hc]
  | none =>
  cases hp : bsdfFind obj.nodes "BSDF_PRINCIPLED" with
  | some bsdf =>
    obtain ⟨hmem, hty⟩ := bsdfFind_mem _ _ _ hp
    obtain ⟨-, -, -, -, hpw, -⟩ := wfNode_parts obj.nodes bsdf (hall bsdf hmem)
    obtain ⟨h1, h2, h3, h4⟩ := hpw hty
    exact principledBranch_ok schema bsdf _ h1 h2 h3 h4
  | none => exact ⟨_, rfl⟩

lemma principledOf_ok (obj : BMaterial) (so : SNode)
    (hall : ∀ n ∈ obj.nodes, wfNode obj.nodes n = true)
    (hso : so ∈ obj.nodes) :
    ∃ pb, principledOf obj.nodes so = .ok pb ∧
      ∀ b, pb = some b → b ∈ obj.nodes ∧ b.type = "BSDF_PRINCIPLED" := by
  obtain ⟨hw, -, -, haddw, -⟩ := wfNode_parts obj.nodes so (hall so hso)
  by_cases h1 : so.type = "BSDF_PRINCIPLED"
  · refine ⟨some so, ?_, ?_⟩
    · unfold principledOf
      rw [if_pos h1]
    · intro b hb
      injection hb with hb
      exact hb ▸ ⟨hso, h1⟩
  · by_cases h2 : so.type = "ADD_SHADER"
    · obtain ⟨o, ho, hm, ht⟩ :=
        get_input_node_index_ok obj.nodes so 1 (some "BSDF_PRINCIPLED") hw
          (by have := haddw h2; omega)
      refine ⟨o, ?_, fun b hb => ⟨hm b hb, ht _ b rfl hb⟩⟩
      unfold principledOf
      rw [if_neg h1, if_pos h2]
      exact ho
    · refine ⟨none, ?_, fun b hb => by cases hb⟩
      unfold principledOf
      rw [if_neg h1, if_neg h2]

/-- Claim C9 (amended): on every well-formed material — links resolve and
the pattern-matched node types expose their expected sockets, which the
host guarantees — whose node graph contains an active material-output node,
the classifier terminates normally with a record (degrading to NOTDEFINED
when no pattern matches).  Without an active material-output node it
raises, as `C9_counterexample` shows. -/
theorem C9_amended_total (schema : String) (obj : BMaterial)
    (hwf : wfMaterial obj = true)
    (hmo : (get_material_node obj.nodes).isSome = true) :
    ∃ r, get_surface_rendering_attributes schema obj = .ok r := by
  have hall := List.all_eq_true.1 hwf
  obtain ⟨mo, hmo'⟩ := Option.isSome_iff_exists.1 hmo
  have hmoMem : mo ∈ obj.nodes := List.mem_of_find?_eq_some hmo'
  have hmoTy : mo.type = "OUTPUT_MATERIAL" := by
    have := List.find?_some hmo'
    simp only [Bool.and_eq_true, decide_eq_true_eq] at this
    exact this.1
  obtain ⟨hw, hsurf, -⟩ := wfNode_parts obj.nodes mo (hall mo hmoMem)
  obtain ⟨so?, hso, hsomem, -⟩ :=
    get_input_node_name_ok obj.nodes mo "Surface" none hw (hsurf hmoTy)
  have hsoOut : surfaceOutputOf obj.nodes = .ok so? := by
    unfold surfaceOutputOf
    rw [hmo']
    exact hso
  have hstep : get_surface_rendering_attributes schema obj =
      classifySurface schema obj (color_to_ifc_format obj.diffuseColor)
        { surfaceColour := color_to_ifc_format obj.diffuseColor,
          transparency := 1 - obj.diffuseColor.a } so? := by
    unfold get_surface_rendering_attributes
    rw [hsoOut]
  rw [hstep]
  cases so? with
  | none =>
    simp only [classifySurface]
    exact bsdfsChain_ok schema obj _ _ hall
  | some so =>
    have hsoMem : so ∈ obj.nodes := hsomem so rfl
    simp only [classifySurface]
    by_cases hmix : so.type = "MIX_SHADER"
    · rw [if_pos hmix]
      exact mixBranch_ok obj so _ hall hsoMem hmix
    · rw [if_neg hmix]
      obtain ⟨pb, hpb, hprop⟩ := principledOf_ok obj so hall hsoMem
      rw [hpb]
      cases pb with
      | some bsdf =>
        obtain ⟨hbm, hbt⟩ := hprop bsdf rfl
        obtain ⟨-, -, -, -, hpw, -⟩ :=
          wfNode_parts obj.nodes bsdf (hall bsdf hbm)
        obtain ⟨h1, h2, h3, h4⟩ := hpw hbt
        exact principledBranch_ok schema bsdf _ h1 h2 h3 h4
      | none =>
        exact bsdfsChain_ok schema obj _ _ hall

/-- A material whose graph has nodes but no active material-output node. -/
def c9Mat : BMaterial :=
  { diffuseColor := ⟨0, 0, 1, 1⟩,
    nodes := [
      { type := "RGB", inputs := [],
        outputs := [⟨false, .color 1 1 1 1⟩] }],
    propsDiffuseColor := ⟨0, 0, 0, 1⟩ }

/-- Claim C9 is false as stated: on a graph with no material-output node
the classifier does not terminate normally with a record — get_input_node
is handed None and raises an AttributeError. -/
theorem C9_counterexample :
    get_surface_rendering_attributes "IFC4" c9Mat =
      Except.error "AttributeError: NoneType has no attribute inputs" := by
  rfl

theorem C9_witness :
    ∃ r, get_surface_rendering_attributes "IFC4" c4Mat = .ok r :=
  C9_amended_total "IFC4" c4Mat (by decide) (by decide)

/-! ## Part C: Style.get_styled_items (source lines 516-534)

The traversal walks the inverse references of a style with an explicit
worklist: a referencing IfcPresentationStyleAssignment is unwrapped by
pushing its own inverse references; any other referrer is an IfcStyledItem
whose Item attribute is read; a None Item is skipped; an IfcMappedItem is
replaced by the items of its mapped representation
(MappingSource.MappedRepresentation.Items); anything else is collected.
The inverse-reference structure is modelled as a tree, which real IFC
documents guarantee (inverse chains of presentation-style assignments are
acyclic). -/

/-- An entity reachable from a styled item's Item attribute: a concrete
geometry item (by id) or an IfcMappedItem carrying its mapped
representation's items. -/
inductive GItem where
  | concrete : Nat → GItem
  | mapped : List GItem → GItem

/-- An entity referencing a style (or a presentation style assignment): an
IfcPresentationStyleAssignment with its own inverse references, or a styled
item with its optional Item attribute. -/
inductive StyleRef where
  | assignment : List StyleRef → StyleRef
  | styled : Option GItem → StyleRef

lemma sizeOf_list_append {α : Type} [SizeOf α] (l₁ l₂ : List α) :
    sizeOf (l₁ ++ l₂) + 1 = sizeOf l₁ + sizeOf l₂ := by
  induction l₁ with
  | nil =>
    simp only [List.nil_append, List.nil.sizeOf_spec]
    omega
  | cons a t ih =>
    simp only [List.cons_append, List.cons.sizeOf_spec]
    omega

lemma sizeOf_list_reverse {α : Type} [SizeOf α] (l : List α) :
    sizeOf l.reverse = sizeOf l := by
  induction l with
  | nil => rfl
  | cons a t ih =>
    rw [List.reverse_cons]
    have h1 := sizeOf_list_append t.reverse [a]
    simp only [List.cons.sizeOf_spec, List.nil.sizeOf_spec] at h1 ⊢
    omega

/-- The while-loop of get_styled_items.  The Python list pops from its
end, so the worklist is kept reversed here: `pop()` is the head, and
`extend(xs)` prepends `xs.reverse`.  The collected `items` accumulator is
in source order. -/
def styledItemsLoop : List StyleRef → List GItem → List GItem
  | [], items => items
  | StyleRef.assignment children :: rest, items =>
    styledItemsLoop (children.reverse ++ rest) items
  | StyleRef.styled none :: rest, items => styledItemsLoop rest items
  | StyleRef.styled (some (GItem.mapped repItems)) :: rest, items =>
    styledItemsLoop rest (items ++ repItems)
  | StyleRef.styled (some (GItem.concrete i)) :: rest, items =>
    styledItemsLoop rest (items ++ [GItem.concrete i])
termination_by worklist _ => sizeOf worklist
decreasing_by
  · have h1 := sizeOf_list_append children.reverse rest
    rw [sizeOf_list_reverse] at h1
    simp only [List.cons.sizeOf_spec, StyleRef.assignment.sizeOf_spec]
    omega
  · simp only [List.cons.sizeOf_spec]
    omega
  · simp only [List.cons.sizeOf_spec]
    omega
  · simp only [List.cons.sizeOf_spec]
    omega

/-- Style.get_styled_items: run the worklist over the style's inverse
references (reversed once, since the source pops from the end of its
list). -/
def get_styled_items (styleInverses : List StyleRef) : List GItem :=
  styledItemsLoop styleInverses.reverse []

def isConcreteItem : GItem → Bool
  | .concrete _ => true
  | .mapped _ => false

/-- Claim C8: a style wrapped by one presentation-style-assignment entity
whose single styled item reaches geometry through one mapped-item
indirection yields exactly the mapped representation's concrete geometry
items; neither the mapped item itself appears in the result (nor can the
assignment, which is not an item at all). -/
theorem C8_styled_items (repItems : List GItem)
    (hconc : ∀ x ∈ repItems, isConcreteItem x = true) :
    get_styled_items
        [StyleRef.assignment [StyleRef.styled (some (GItem.mapped repItems))]] =
      repItems ∧
    GItem.mapped repItems ∉
      get_styled_items
        [StyleRef.assignment [StyleRef.styled (some (GItem.mapped repItems))]] := by
  have heq : get_styled_items
      [StyleRef.assignment [StyleRef.styled (some (GItem.mapped repItems))]] =
      repItems := by
    unfold get_styled_items
    rw [List.reverse_singleton]
    rw [styledItemsLoop]
    rw [List.reverse_singleton, List.singleton_append]
    rw [styledItemsLoop]
    rw [styledItemsLoop]
    rw [List.nil_append]
  refine ⟨heq, ?_⟩
  rw [heq]
  intro hmem
  have := hconc _ hmem
  simp [isConcreteItem] at this

theorem C8_witness :
    get_styled_items
        [StyleRef.assignment [StyleRef.styled
          (some (GItem.mapped [GItem.concrete 5, GItem.concrete 7]))]] =
      [GItem.concrete 5, GItem.concrete 7] ∧
    GItem.mapped [GItem.concrete 5, GItem.concrete 7] ∉
      get_styled_items
        [StyleRef.assignment [StyleRef.styled
          (some (GItem.mapped [GItem.concrete 5, GItem.concrete 7]))]] :=
  C8_styled_items [GItem.concrete 5, GItem.concrete 7] (by decide)
